import Mathlib

/-!
Shallow embedding of the ram-sentinel daemon (Rust sources under src/) and
proofs of the spec claims about it.

Modelling conventions:
* Machine integers (u32/u64/i32/usize) are Nat/Int with explicit `% 2^w`
  where the source can overflow.
* Rust `f32`/`f64` quantities that only feed comparisons and exact-ratio
  arithmetic (free-memory percentages, PSI pressure) are modelled as `Rat`.
* Fallible I/O (file reads, signal sends) is modelled by `Option`/values
  supplied by an environment record: `none` is the error case.
* `/proc/<pid>/...` file contents are `List Char` (the source reads bytes
  and goes through UTF-8; we model valid-UTF-8 contents, which is the
  only case the parsing code acts on).
* Wall-clock `Instant`s are Nat microseconds; `as_millis` is `/ 1000`.
-/

namespace RamSentinel

/-! ## String / byte parsing helpers (mirroring the Rust std operations used) -/

/-- Model of Rust `str::split_whitespace`: split on whitespace, dropping
empty fragments. Accumulator-based, structural on the input. -/
def splitWsAux : List Char → List Char → List (List Char)
  | [], acc => if acc.isEmpty then [] else [acc.reverse]
  | c :: cs, acc =>
    if c.isWhitespace then
      (if acc.isEmpty then splitWsAux cs [] else acc.reverse :: splitWsAux cs [])
    else
      splitWsAux cs (c :: acc)

/-- Rust `split_whitespace` over a char list. -/
def split_whitespace (l : List Char) : List (List Char) := splitWsAux l []

/-- Digits-only unsigned parse (no sign handling). -/
def digitsVal (l : List Char) : Nat :=
  l.foldl (fun a c => a * 10 + (c.toNat - 48)) 0

/-- Unsigned decimal parse: nonempty, all digits. -/
def parseDigits? (l : List Char) : Option Nat :=
  if l.isEmpty then none
  else if l.all Char.isDigit then some (digitsVal l) else none

/-- Model of Rust `str::parse::<u64>()`: optional leading `+`, digits,
range check against 2^64. -/
def parseU64? (l : List Char) : Option Nat :=
  let l := match l with
    | '+' :: r => r
    | _ => l
  match parseDigits? l with
  | some n => if n < 2 ^ 64 then some n else none
  | none => none

/-- Model of Rust `str::parse::<u32>()`. -/
def parseU32? (l : List Char) : Option Nat :=
  let l := match l with
    | '+' :: r => r
    | _ => l
  match parseDigits? l with
  | some n => if n < 2 ^ 32 then some n else none
  | none => none

/-- Model of Rust `str::parse::<i32>()`: optional sign, digits, i32 range. -/
def parseI32? (l : List Char) : Option Int :=
  match l with
  | '-' :: r =>
    match parseDigits? r with
    | some n => if n ≤ 2 ^ 31 then some (-(n : Int)) else none
    | none => none
  | '+' :: r =>
    match parseDigits? r with
    | some n => if n < 2 ^ 31 then some (n : Int) else none
    | none => none
  | _ =>
    match parseDigits? l with
    | some n => if n < 2 ^ 31 then some (n : Int) else none
    | none => none

/-- Model of Rust `str::trim` over a char list. -/
def trimChars (l : List Char) : List Char :=
  ((l.dropWhile Char.isWhitespace).reverse.dropWhile Char.isWhitespace).reverse

/-- Model of `str::split_once(") ")`: the part after the first occurrence
of the two-character pattern, or `none`. -/
def splitOnceCloseParen : List Char → Option (List Char)
  | [] => none
  | [_] => none
  | ')' :: ' ' :: rest => some rest
  | _ :: c :: rest => splitOnceCloseParen (c :: rest)

/-- Prefix test on char lists (Rust `str::starts_with`). -/
def startsWithL : List Char → List Char → Bool
  | [], _ => true
  | _ :: _, [] => false
  | a :: as, b :: bs => a = b && startsWithL as bs

/-- Substring containment on char lists (Rust `str::contains`). -/
def containsSub (needle : List Char) : List Char → Bool
  | [] => startsWithL needle []
  | c :: cs => startsWithL needle (c :: cs) || containsSub needle cs

/-! ## Configuration data model (config.rs, psi.rs) -/

/-- KillStrategy from config.rs. -/
inductive KillStrategy
  | largestRss
  | highestOomScore
deriving DecidableEq, Repr

/-- Pattern from config.rs. The compiled-regex variant is modelled by its
matching function (the `regex` crate is external to this repository). -/
inductive Pattern
  | literal (s : List Char)
  | regex (m : List Char → Bool)
  | startsWith (s : List Char)

/-- Pattern::matches from config.rs. -/
def Pattern.matches : Pattern → List Char → Bool
  | .literal lit, s => containsSub lit s
  | .regex m, s => m s
  | .startsWith p, s => startsWithL p s

/-- MemoryConfigParsed from config.rs (percent thresholds were f32). -/
structure MemoryConfigParsed where
  warn_min_free_bytes : Option Nat
  warn_min_free_percent : Option Rat
  kill_min_free_bytes : Option Nat
  kill_min_free_percent : Option Rat

/-- PsiConfigParsed from psi.rs. -/
structure PsiConfigParsed where
  warn_max_percent : Option Rat
  kill_max_percent : Option Rat
  amount_to_free : Option Nat
  check_interval_ms : Nat

/-- RuntimeContext from config.rs. -/
structure RuntimeContext where
  psi : Option PsiConfigParsed
  ram : Option MemoryConfigParsed
  swap : Option MemoryConfigParsed
  check_interval_ms : Nat
  warn_reset_ms : Nat
  sigterm_wait_ms : Nat
  kill_strategy : KillStrategy
  ignore_names_regex : List Pattern
  kill_targets_regex : List Pattern

/-- Ambient process facts read by Killer::find_champion: effective uid,
root check, own pid, system page size. -/
structure SysParams where
  is_root : Bool
  current_uid : Nat
  my_pid : Nat
  page_size : Nat

/-! ## Event model (events.rs, restricted to the fields the core emits).
String-formatted reasons are modelled structurally so theorems can
distinguish them. -/

/-- Errno values relevant to the kill paths (nix::errno::Errno). -/
inductive Errno
  | esrch
  | eperm
  | einval
deriving DecidableEq, Repr

/-- Structured form of the KillCandidateIgnored reason strings. -/
inductive IgnoreReason
  | alreadyGone
  | pidReuse
deriving DecidableEq, Repr

/-- Structured form of the KillSequenceAborted reason strings. -/
inductive AbortReason
  | procReadFailed
  | noCandidates
  | sigtermFailed (pid : Nat) (e : Errno)
  | sigkillFailed (pid : Nat) (e : Errno)
  | killFailed (pid : Nat) (name : String)
  | targetReached (freed : Nat)
  | amountNone
deriving DecidableEq, Repr

/-- Signal used in a KillExecuted event. -/
inductive SigStrategy
  | sigterm
  | sigkill
deriving DecidableEq, Repr

/-- SentinelEvent from events.rs (core-emitted variants). -/
inductive SentinelEvent
  | startup (interval_ms : Nat)
  | lowMemoryWarn (available_bytes : Nat) (available_percent : Rat)
      (threshold_type : String) (threshold_value : Rat)
  | lowSwapWarn (free_bytes : Nat) (free_percent : Rat)
      (threshold_type : String) (threshold_value : Rat)
  | psiPressureWarn (pressure_curr : Rat) (threshold : Rat)
  | killTriggered (trigger : String) (observed_value : Rat)
      (threshold_value : Rat) (threshold_type : String)
      (amount_needed : Option Nat)
  | killCandidateSelected (pid : Nat) (process_name : String)
      (score : Nat) (rss : Nat) (match_index : Nat)
  | killExecuted (pid : Nat) (process_name : String)
      (strategy : SigStrategy) (rss_freed : Nat)
  | killSequenceAborted (reason : AbortReason)
  | killCandidateIgnored (pid : Nat) (reason : IgnoreReason)
  | monitorHeartbeat (memory_available_bytes : Option Nat)
      (memory_available_percent : Option Rat) (swap_free_bytes : Option Nat)
      (swap_free_percent : Option Rat) (psi_pressure_curr : Option Rat)
  | message (text : String)
deriving DecidableEq

/-! ## Kill engine (killer.rs) -/

/-- The sentinel usize::MAX used for non-matching processes. -/
def usizeMax : Nat := 2 ^ 64 - 1

/-- Champion from killer.rs. -/
structure Champion where
  pid : Nat
  score : Nat
  rss : Nat
  match_index : Nat
  start_time : Nat
deriving DecidableEq, Repr

/-- One `/proc` directory entry as seen by the scan. Each field that the
source obtains from a fallible syscall or file read is an Option:
`none` is the corresponding failure (entry.metadata() error, read error). -/
structure DirEntry where
  name : List Char
  meta_uid : Option Nat
  cmdline : Option (List Char)
  statm : Option (List Char)
  oom_score : Option (List Char)
  stat : Option (List Char)

/-- Null-byte to space replacement applied to cmdline bytes in
find_champion before pattern matching. -/
def nullsToSpaces (l : List Char) : List Char :=
  l.map fun c => if c.toNat = 0 then ' ' else c

/-- First matching index in the target pattern list, else usize::MAX
(killer.rs lines 196-203). -/
def matchIdxAux : Nat → List Pattern → List Char → Nat
  | _, [], _ => usizeMax
  | i, p :: ps, cmd => if p.matches cmd then i else matchIdxAux (i + 1) ps cmd

/-- Parse of the `statm` second field into rss bytes
(killer.rs lines 219-232 and 296-312): on any failure rss stays 0.
The u64 multiplication is reduced mod 2^64. -/
def statmRss (page_size : Nat) (content : Option (List Char)) : Nat :=
  match content with
  | none => 0
  | some l =>
    match split_whitespace l with
    | _total :: res :: _ =>
      match parseU64? res with
      | some pages => (pages * page_size) % 2 ^ 64
      | none => 0
    | _ => 0

/-- Parse of `oom_score` into the u64 score (killer.rs lines 234-246):
`val as u64` on an i32 is reduction mod 2^64; on any failure score stays 0. -/
def oomScoreVal (content : Option (List Char)) : Nat :=
  match content with
  | none => 0
  | some l =>
    match parseI32? (trimChars l) with
    | some v => (v % (2 ^ 64 : Int)).toNat
    | none => 0

/-- Parse of field 22 (starttime) out of `/proc/<pid>/stat` content
(killer.rs lines 263-287 and 368-371): split once on ") ", take the
19th whitespace token of the remainder, parse as u64. -/
def parseStartTime (l : List Char) : Option Nat :=
  match splitOnceCloseParen l with
  | none => none
  | some rest =>
    match (split_whitespace rest).get? 19 with
    | none => none
    | some tok => parseU64? tok

/-- One iteration of the find_champion scan loop (killer.rs lines 129-292)
processing a single directory entry against the current champion. -/
def find_champion_step (P : SysParams) (ctx : RuntimeContext)
    (champ : Option Champion) (e : DirEntry) : Option Champion :=
  match parseU32? e.name with
  | none => champ
  | some pid =>
    if pid = P.my_pid then champ
    else
      let ownOk : Bool := P.is_root ||
        (match e.meta_uid with
         | some u => u = P.current_uid
         | none => false)
      if !ownOk then champ
      else
        match e.cmdline with
        | none => champ
        | some raw =>
          let cmd := nullsToSpaces raw
          if ctx.ignore_names_regex.any (fun p => p.matches cmd) then champ
          else
            let mi := matchIdxAux 0 ctx.kill_targets_regex cmd
            if (match champ with
                | some c => decide (c.match_index < mi)
                | none => false) then champ
            else
              let rss := match ctx.kill_strategy with
                | .largestRss => statmRss P.page_size e.statm
                | .highestOomScore => 0
              let score := match ctx.kill_strategy with
                | .largestRss => statmRss P.page_size e.statm
                | .highestOomScore => oomScoreVal e.oom_score
              if (match champ with
                  | some c =>
                    (decide (mi = c.match_index) && decide (score ≤ c.score)) ||
                      decide (c.match_index < mi)
                  | none => false) then champ
              else
                match e.stat with
                | none => champ
                | some st =>
                  match parseStartTime st with
                  | none => champ
                  | some t => some ⟨pid, score, rss, mi, t⟩

/-- Killer::find_champion over a snapshot of `/proc` entries. The
post-loop rss backfill re-reads `statm` for the champion pid; that
fresh read is supplied by `statm_reread`. -/
def find_champion (P : SysParams) (ctx : RuntimeContext)
    (entries : List DirEntry) (statm_reread : Nat → Option (List Char)) :
    Option Champion :=
  match entries.foldl (find_champion_step P ctx) none with
  | none => none
  | some c =>
    if c.rss = 0 then some { c with rss := statmRss P.page_size (statm_reread c.pid) }
    else some c

/-- Outcomes of the syscalls made by Killer::kill_process, in program
order: the SIGTERM send result (`none` = Ok), the content of
`/proc/<pid>/stat` as read after the sigterm_wait_ms sleep, and the
SIGKILL send result. -/
structure KillEnv where
  sigterm_result : Option Errno
  stat_after_wait : Option (List Char)
  sigkill_result : Option Errno

/-- Result of Killer::kill_process: the Option<u64> return value, the
events it emits, and whether the SIGKILL send was reached. -/
structure KillOutcome where
  result : Option Nat
  events : List SentinelEvent
  sigkill_attempted : Bool
deriving DecidableEq

/-- Killer::kill_process (killer.rs lines 343-409). The sigterm_wait_ms
sleep has no observable effect beyond the world state captured in
stat_after_wait, so the model takes no clock. -/
def kill_process (env : KillEnv) (victim : Champion) (name : String) :
    KillOutcome :=
  match env.sigterm_result with
  | some .esrch =>
    ⟨some victim.rss, [.killCandidateIgnored victim.pid .alreadyGone], false⟩
  | some e =>
    ⟨none, [.killSequenceAborted (.sigtermFailed victim.pid e)], false⟩
  | none =>
    let sigkillStep : KillOutcome :=
      match env.sigkill_result with
      | some e => ⟨none, [.killSequenceAborted (.sigkillFailed victim.pid e)], true⟩
      | none =>
        ⟨some victim.rss, [.killExecuted victim.pid name .sigkill victim.rss], true⟩
    match env.stat_after_wait with
    | some s =>
      match parseStartTime s with
      | some st =>
        if st ≠ victim.start_time then
          ⟨some victim.rss, [.killCandidateIgnored victim.pid .pidReuse], false⟩
        else sigkillStep
      | none => sigkillStep
    | none =>
      ⟨some victim.rss, [.killExecuted victim.pid name .sigterm victim.rss], false⟩

/-- The world as seen by one iteration of Killer::kill_sequence: the
`/proc` snapshot (`none` = read_dir failed), the fresh statm read for the
rss backfill, the champion's `comm` (already trimmed; `none` = read
failed), and the syscall outcomes for kill_process. -/
structure Round where
  proc_entries : Option (List DirEntry)
  statm_reread : Nat → Option (List Char)
  comm : Option String
  kill_env : KillEnv

/-- The scan part of a kill_sequence iteration, including the
KillSequenceAborted event emitted when `/proc` itself cannot be read
(killer.rs lines 119-127). -/
def find_champion_scan (P : SysParams) (ctx : RuntimeContext) (r : Round) :
    Option Champion × List SentinelEvent :=
  match r.proc_entries with
  | none => (none, [.killSequenceAborted .procReadFailed])
  | some es => (find_champion P ctx es r.statm_reread, [])

/-- Killer::kill_sequence (killer.rs lines 44-97). The loop is driven by
the list of per-iteration worlds; `none` means the loop would have run
past the supplied rounds (the model cannot determine the outcome). -/
def kill_sequence (P : SysParams) (ctx : RuntimeContext) :
    List Round → Option Nat → Option (List SentinelEvent)
  | [], _ => none
  | r :: rs, amount_needed =>
    match find_champion_scan P ctx r with
    | (none, evScan) => some (evScan ++ [.killSequenceAborted .noCandidates])
    | (some champion, evScan) =>
      let name := r.comm.getD "unknown"
      let evSel := SentinelEvent.killCandidateSelected champion.pid name
        champion.score champion.rss champion.match_index
      let out := kill_process r.kill_env champion name
      match out.result with
      | some freed =>
        match amount_needed with
        | some needed =>
          if needed ≤ freed then
            some (evScan ++ [evSel] ++ out.events ++
              [.killSequenceAborted (.targetReached freed)])
          else
            match kill_sequence P ctx rs (some (needed - freed)) with
            | some rest => some (evScan ++ [evSel] ++ out.events ++ rest)
            | none => none
        | none => some (evScan ++ [evSel] ++ out.events)
      | none =>
        some (evScan ++ [evSel] ++ out.events ++
          [.killSequenceAborted (.killFailed champion.pid name)])

/-! ## Monitor (monitor.rs) -/

/-- Monitor's mutable state (monitor.rs lines 9-19). Instants are Nat
microseconds. -/
structure MonitorState where
  last_psi_total : Option Nat
  last_psi_time : Nat
  last_warn_time : Option Nat
  ram_bytes : Option Nat
  ram_percent : Option Rat
  swap_bytes : Option Nat
  swap_percent : Option Rat
  psi_pressure : Option Rat

/-- Kernel readings consumed by one Monitor::check tick: the refreshed
memory/swap gauges, the PSI counter read result (`none` = read error),
and the tick's Instant in microseconds. -/
structure Readings where
  mem_available : Nat
  mem_total : Nat
  swap_free : Nat
  swap_total : Nat
  psi_read : Option Nat
  now : Nat

/-- MonitorStatus from monitor.rs. -/
inductive MonitorStatus
  | normal
  | warn
  | kill (ev : SentinelEvent)
deriving DecidableEq

/-- check_kill from monitor.rs (lines 291-310): bytes threshold dominates,
percent checked only when no bytes threshold is set. -/
def check_kill (config : MemoryConfigParsed) (free_bytes : Nat)
    (free_percent : Rat) : Option (Rat × String) :=
  match config.kill_min_free_bytes with
  | some limit =>
    if free_bytes < limit then some ((limit : Rat), "bytes") else none
  | none =>
    match config.kill_min_free_percent with
    | some lp => if free_percent < lp then some (lp, "percent") else none
    | none => none

/-- check_warn from monitor.rs (lines 312-329). -/
def check_warn (config : MemoryConfigParsed) (free_bytes : Nat)
    (free_percent : Rat) : Option (Rat × String) :=
  match config.warn_min_free_bytes with
  | some limit =>
    if free_bytes < limit then some ((limit : Rat), "bytes") else none
  | none =>
    match config.warn_min_free_percent with
    | some lp => if free_percent < lp then some (lp, "percent") else none
    | none => none

/-- The `target` computed inside calc_needed (monitor.rs lines 332-338).
The percent branch is `(total as f64 * (percent/100.0)) as u64`:
the f64 product is modelled exactly in Rat and `as u64` as floor. -/
def calc_target (config : MemoryConfigParsed) (total : Nat) : Nat :=
  match config.kill_min_free_bytes with
  | some bytes => bytes
  | none =>
    match config.kill_min_free_percent with
    | some percent => (⌊(total : Rat) * (percent / 100)⌋).toNat
    | none => 0

/-- calc_needed from monitor.rs (lines 331-345). -/
def calc_needed (config : MemoryConfigParsed) (current_free total : Nat) :
    Option Nat :=
  let target := calc_target config total
  if current_free < target then some (target - current_free) else none

/-- Intermediate result of one priority block of Monitor::check: updated
state, the pending warn slot, and a kill verdict event if the block
returned early. -/
structure BlockOut where
  st : MonitorState
  pending : Option SentinelEvent
  kill : Option SentinelEvent

/-- Priority 1 of Monitor::check: the RAM block (monitor.rs lines 112-152). -/
def ram_block (ctx : RuntimeContext) (st : MonitorState) (r : Readings)
    (pending : Option SentinelEvent) : BlockOut :=
  match ctx.ram with
  | none => ⟨st, pending, none⟩
  | some rc =>
    if r.mem_total = 0 then ⟨st, pending, none⟩
    else
      let pf : Rat := (r.mem_available : Rat) / (r.mem_total : Rat) * 100
      let st' := { st with ram_bytes := some r.mem_available, ram_percent := some pf }
      match check_kill rc r.mem_available pf with
      | some (thr, ty) =>
        ⟨st', pending, some (.killTriggered "LowMemory"
          (if ty = "bytes" then (r.mem_available : Rat) else pf) thr ty
          (calc_needed rc r.mem_available r.mem_total))⟩
      | none =>
        match check_warn rc r.mem_available pf with
        | some (thr, ty) =>
          ⟨st',
            (match pending with
             | none => some (.lowMemoryWarn r.mem_available pf ty thr)
             | some e => some e), none⟩
        | none => ⟨st', pending, none⟩

/-- Priority 2 of Monitor::check: the swap block (monitor.rs lines 154-194). -/
def swap_block (ctx : RuntimeContext) (st : MonitorState) (r : Readings)
    (pending : Option SentinelEvent) : BlockOut :=
  match ctx.swap with
  | none => ⟨st, pending, none⟩
  | some sc =>
    if r.swap_total = 0 then ⟨st, pending, none⟩
    else
      let pf : Rat := (r.swap_free : Rat) / (r.swap_total : Rat) * 100
      let st' := { st with swap_bytes := some r.swap_free, swap_percent := some pf }
      match check_kill sc r.swap_free pf with
      | some (thr, ty) =>
        ⟨st', pending, some (.killTriggered "LowSwap"
          (if ty = "bytes" then (r.swap_free : Rat) else pf) thr ty
          (calc_needed sc r.swap_free r.swap_total))⟩
      | none =>
        match check_warn sc r.swap_free pf with
        | some (thr, ty) =>
          ⟨st',
            (match pending with
             | none => some (.lowSwapWarn r.swap_free pf ty thr)
             | some e => some e), none⟩
        | none => ⟨st', pending, none⟩

/-- Priority 3 of Monitor::check: the PSI block (monitor.rs lines 196-250).
Durations are saturating (Nat subtraction); the `.expect("validated")`
on amount_to_free is modelled by `getD 0` (config validation guarantees
it is Some whenever kill_max_percent is Some). -/
def psi_block (ctx : RuntimeContext) (st : MonitorState) (r : Readings)
    (pending : Option SentinelEvent) : BlockOut :=
  match ctx.psi with
  | none => ⟨st, pending, none⟩
  | some pc =>
    if (r.now - st.last_psi_time) / 1000 < pc.check_interval_ms then
      ⟨st, pending, none⟩
    else
      match r.psi_read with
      | none => ⟨st, pending, none⟩
      | some current =>
        match st.last_psi_total with
        | none =>
          ⟨{ st with last_psi_total := some current, last_psi_time := r.now },
            pending, none⟩
        | some last =>
          let tdus : Rat := ((r.now - st.last_psi_time : Nat) : Rat)
          let tot : Rat := ((current - last : Nat) : Rat)
          let pressure : Rat := if 0 < tdus then tot / tdus * 100 else 0
          let st' := { st with last_psi_total := some current, last_psi_time := r.now, psi_pressure := some pressure }
          if (match pc.kill_max_percent with
              | some kmax => decide (kmax < pressure)
              | none => false) then
            ⟨st', pending, some (.killTriggered "PsiPressure" pressure
              (pc.kill_max_percent.getD 0) "percent"
              (some (pc.amount_to_free.getD 0)))⟩
          else
            match pending with
            | some e => ⟨st', some e, none⟩
            | none =>
              match pc.warn_max_percent with
              | some wmax =>
                if wmax < pressure then
                  ⟨st', some (.psiPressureWarn pressure wmax), none⟩
                else ⟨st', none, none⟩
              | none => ⟨st', none, none⟩

/-- The three priority blocks of Monitor::check in order, with the Kill
early-return semantics: a block that kills stops the tick. -/
def blocks_out (ctx : RuntimeContext) (st : MonitorState) (r : Readings) :
    BlockOut :=
  let b1 := ram_block ctx st r none
  match b1.kill with
  | some _ => b1
  | none =>
    let b2 := swap_block ctx b1.st r b1.pending
    match b2.kill with
    | some _ => b2
    | none => psi_block ctx b2.st r b2.pending

/-- Monitor::can_warn (monitor.rs lines 275-282). The fresh
Instant::now() taken inside can_warn is identified with the tick's now
(the clock advance between the two calls within one tick is not
modelled). -/
def can_warn (ctx : RuntimeContext) (st : MonitorState) (now : Nat) : Bool :=
  match st.last_warn_time with
  | some last => ctx.warn_reset_ms ≤ (now - last) / 1000
  | none => true

/-- Monitor::check (monitor.rs lines 104-273). Returns the new state, the
events emitted by check itself, and the MonitorStatus. The Kill event is
returned inside the status (main emits it), so the kill path emits
nothing and skips the debug heartbeat. `dbg` is whether the log level is
at least Debug. -/
def Monitor.check (ctx : RuntimeContext) (st : MonitorState) (r : Readings)
    (dbg : Bool) : MonitorState × List SentinelEvent × MonitorStatus :=
  let b := blocks_out ctx st r
  match b.kill with
  | some ev => (b.st, [], .kill ev)
  | none =>
    let hb : List SentinelEvent :=
      if dbg then
        [.monitorHeartbeat b.st.ram_bytes b.st.ram_percent b.st.swap_bytes
          b.st.swap_percent b.st.psi_pressure]
      else []
    match b.pending with
    | some ev =>
      if can_warn ctx b.st r.now then
        ({ b.st with last_warn_time := some r.now }, hb ++ [ev], .warn)
      else (b.st, hb, .normal)
    | none => (b.st, hb, .normal)

/-- The kill-enabled branch of run_loop's Kill handling (main.rs lines
169-185): the amount passed to kill_sequence (if invoked at all) and the
events emitted instead when it is not invoked. -/
def run_loop_kill_step (ev : SentinelEvent) : Option Nat × List SentinelEvent :=
  match ev with
  | .killTriggered _ _ _ _ amount =>
    match amount with
    | some needed => (some needed, [])
    | none => (none, [.killSequenceAborted .amountNone])
  | _ => (none, [.message "Monitor returned non-KillTriggered event in Kill status"])

/-! ## Configuration loading (config.rs, config_error.rs, psi.rs).
Deserialized (pre-validation) config values; percent fields were f32,
modelled as Rat; size fields are raw strings parsed by the external
byte_unit crate, supplied here as a `parse_size` function parameter. -/

/-- MemoryConfig from config.rs (raw, pre-parse). -/
structure MemoryConfig where
  warn_min_free_bytes : Option String
  warn_min_free_percent : Option Rat
  kill_min_free_bytes : Option String
  kill_min_free_percent : Option Rat

/-- PsiConfig from psi.rs (raw, pre-parse). -/
structure PsiConfig where
  warn_max_percent : Option Rat
  kill_max_percent : Option Rat
  amount_to_free : Option String
  check_interval_ms : Option Nat

/-- Config from config.rs (after deserialization, before validation). -/
structure Config where
  psi : Option PsiConfig
  ram : Option MemoryConfig
  swap : Option MemoryConfig
  check_interval_ms : Nat
  warn_reset_ms : Nat
  sigterm_wait_ms : Nat
  ignore_names : List String
  kill_targets : List String
  kill_strategy : KillStrategy

/-- Structured form of psi.rs PsiError::ValidationError cases raised by
PsiConfigParsed::try_from_config. -/
inductive PsiErr
  | warnPercentOutOfRange (v : Rat)
  | killPercentOutOfRange (v : Rat)
  | amountMissing
  | amountInvalid (s : String)
  | amountZero
  | amountTooLarge (amt total : Nat)
  | intervalOutOfRange (v : Nat)
deriving DecidableEq

/-- ConfigError from config_error.rs (payloads trimmed to what the core
branches on). -/
inductive ConfigError
  | fileRead
  | fileParse
  | configFileNotFound
  | effectiveEmpty
  | intervalTooHigh (v : Nat)
  | intervalTooLow (v : Nat)
  | psiConfig (e : PsiErr)
  | psiUnavailable
  | regexError (field : String) (idx : Nat) (pat : String)
  | invalidSize (field : String) (val : String)
  | invalidPercent (field : String) (val : Rat)
deriving DecidableEq

/-- ConfigError::exit_code from config_error.rs (lines 21-35). -/
def ConfigError.exit_code : ConfigError → Nat
  | .fileRead => 2
  | .configFileNotFound => 2
  | .fileParse => 3
  | .effectiveEmpty => 4
  | .intervalTooHigh _ => 5
  | .intervalTooLow _ => 6
  | .psiConfig _ => 7
  | .psiUnavailable => 8
  | .regexError _ _ _ => 9
  | .invalidSize _ _ => 10
  | .invalidPercent _ _ => 11

/-- MemoryConfig::is_effectively_empty (config.rs lines 101-106). -/
def MemoryConfig.is_effectively_empty (c : MemoryConfig) : Bool :=
  c.warn_min_free_bytes.isNone && c.warn_min_free_percent.isNone &&
    c.kill_min_free_bytes.isNone && c.kill_min_free_percent.isNone

/-- PsiConfig::is_effectively_empty (psi.rs lines 76-78). -/
def PsiConfig.is_effectively_empty (c : PsiConfig) : Bool :=
  c.warn_max_percent.isNone && c.kill_max_percent.isNone

/-- Config::validate (config.rs lines 274-292). -/
def Config.validate (c : Config) : Except ConfigError Unit :=
  let psi_empty := match c.psi with
    | some p => p.is_effectively_empty
    | none => true
  let ram_empty := match c.ram with
    | some r => r.is_effectively_empty
    | none => true
  let swap_empty := match c.swap with
    | some s => s.is_effectively_empty
    | none => true
  if psi_empty && ram_empty && swap_empty then .error .effectiveEmpty
  else if 300000 < c.check_interval_ms then .error (.intervalTooHigh c.check_interval_ms)
  else if c.check_interval_ms < 100 then .error (.intervalTooLow c.check_interval_ms)
  else .ok ()

/-- compile_patterns (config.rs lines 295-321). The external regex
compiler is a parameter: `none` is a compile error. -/
def compile_patterns_aux (regex_compile : String → Option (List Char → Bool))
    (field : String) : Nat → List String → Except ConfigError (List Pattern)
  | _, [] => .ok []
  | i, s :: rest =>
    let cs := s.data
    let head? := cs.head?
    let last? := cs.getLast?
    if head? = some '/' && last? = some '/' && 2 < cs.length then
      match regex_compile (String.mk (cs.drop 1).dropLast) with
      | some m =>
        match compile_patterns_aux regex_compile field (i + 1) rest with
        | .ok ps => .ok (.regex m :: ps)
        | .error e => .error e
      | none => .error (.regexError field i s)
    else if head? = some '^' && 1 < cs.length then
      match compile_patterns_aux regex_compile field (i + 1) rest with
      | .ok ps => .ok (.startsWith (cs.drop 1) :: ps)
      | .error e => .error e
    else
      match compile_patterns_aux regex_compile field (i + 1) rest with
      | .ok ps => .ok (.literal cs :: ps)
      | .error e => .error e

/-- compile_patterns entry point. -/
def compile_patterns (regex_compile : String → Option (List Char → Bool))
    (raw : List String) (field : String) : Except ConfigError (List Pattern) :=
  compile_patterns_aux regex_compile field 0 raw

/-- MemoryConfigParsed::try_from_config (config.rs lines 55-90).
`parse_size` is the external byte_unit crate. -/
def MemoryConfigParsed.try_from_config (parse_size : String → Option Nat)
    (config : MemoryConfig) : Except ConfigError MemoryConfigParsed :=
  let warnBytes : Except ConfigError (Option Nat) :=
    match config.warn_min_free_bytes with
    | some s =>
      match parse_size s with
      | some n => .ok (some n)
      | none => .error (.invalidSize "warnMinFreeBytes" s)
    | none => .ok none
  match warnBytes with
  | .error e => .error e
  | .ok warn_min_free_bytes =>
    let killBytes : Except ConfigError (Option Nat) :=
      match config.kill_min_free_bytes with
      | some s =>
        match parse_size s with
        | some n => .ok (some n)
        | none => .error (.invalidSize "killMinFreeBytes" s)
      | none => .ok none
    match killBytes with
    | .error e => .error e
    | .ok kill_min_free_bytes =>
      if (match config.warn_min_free_percent with
          | some p => decide (p < 0 ∨ 100 < p)
          | none => false) then
        .error (.invalidPercent "warnMinFreePercent" (config.warn_min_free_percent.getD 0))
      else if (match config.kill_min_free_percent with
          | some p => decide (p < 0 ∨ 100 < p)
          | none => false) then
        .error (.invalidPercent "killMinFreePercent" (config.kill_min_free_percent.getD 0))
      else
        .ok ⟨warn_min_free_bytes, config.warn_min_free_percent,
          kill_min_free_bytes, config.kill_min_free_percent⟩

/-- PsiConfigParsed::try_from_config (psi.rs lines 89-137). `total_ram`
is utils::get_total_memory(). -/
def PsiConfigParsed.try_from_config (parse_size : String → Option Nat)
    (total_ram : Nat) (config : PsiConfig) (global_interval : Nat) :
    Except PsiErr PsiConfigParsed :=
  if (match config.warn_max_percent with
      | some w => decide (w < 0 ∨ 100 < w)
      | none => false) then
    .error (.warnPercentOutOfRange (config.warn_max_percent.getD 0))
  else if (match config.kill_max_percent with
      | some k => decide (k < 0 ∨ 100 < k)
      | none => false) then
    .error (.killPercentOutOfRange (config.kill_max_percent.getD 0))
  else if config.kill_max_percent.isSome && config.amount_to_free.isNone then
    .error .amountMissing
  else
    let amountStep : Except PsiErr (Option Nat) :=
      match config.amount_to_free with
      | some amt_str =>
        match parse_size amt_str with
        | none => .error (.amountInvalid amt_str)
        | some parsed_amt =>
          if parsed_amt = 0 then .error .amountZero
          else if total_ram / 2 < parsed_amt then
            .error (.amountTooLarge parsed_amt total_ram)
          else .ok (some parsed_amt)
      | none => .ok none
    match amountStep with
    | .error e => .error e
    | .ok amount_to_free =>
      let check_interval_ms := config.check_interval_ms.getD (global_interval * 10)
      if check_interval_ms < 100 || 300000 < check_interval_ms then
        .error (.intervalOutOfRange check_interval_ms)
      else
        .ok ⟨config.warn_max_percent, config.kill_max_percent, amount_to_free,
          check_interval_ms⟩

/-- Config::sane_defaults (config.rs lines 245-272). -/
def Config.sane_defaults : Config :=
  { psi := some ⟨none, none, none, none⟩
    ram := some ⟨none, some 10, none, some 5⟩
    swap := some ⟨none, none, none, none⟩
    check_interval_ms := 1000
    warn_reset_ms := 30000
    sigterm_wait_ms := 5000
    ignore_names := []
    kill_targets := ["type=renderer", "-contentproc"]
    kill_strategy := .highestOomScore }

/-- Config::load (config.rs lines 155-208), starting from the already
deserialized Config (file discovery/parsing is out of the modelled
core). `psi_read` is the result of psi::read_psi_total(), i.e. of the
availability probe on /proc/pressure/memory (`none` = missing or
unreadable). -/
def Config.load (parse_size : String → Option Nat)
    (regex_compile : String → Option (List Char → Bool)) (total_ram : Nat)
    (psi_read : Option Nat) (config : Config) :
    Except ConfigError RuntimeContext :=
  match config.validate with
  | .error e => .error e
  | .ok _ =>
    match compile_patterns regex_compile config.ignore_names "ignore_names" with
    | .error e => .error e
    | .ok ignore_names_regex =>
      match compile_patterns regex_compile config.kill_targets "kill_targets" with
      | .error e => .error e
      | .ok kill_targets_regex =>
        let psiStep : Except ConfigError (Option PsiConfigParsed) :=
          match config.psi with
          | some p =>
            match PsiConfigParsed.try_from_config parse_size total_ram p
                config.check_interval_ms with
            | .error e => .error (.psiConfig e)
            | .ok parsed =>
              match psi_read with
              | none => .error .psiUnavailable
              | some _ => .ok (some parsed)
          | none => .ok none
        match psiStep with
        | .error e => .error e
        | .ok psi_parsed =>
          let ramStep : Except ConfigError (Option MemoryConfigParsed) :=
            match config.ram with
            | some r =>
              match MemoryConfigParsed.try_from_config parse_size r with
              | .error e => .error e
              | .ok parsed => .ok (some parsed)
            | none => .ok none
          match ramStep with
          | .error e => .error e
          | .ok ram_parsed =>
            let swapStep : Except ConfigError (Option MemoryConfigParsed) :=
              match config.swap with
              | some s =>
                match MemoryConfigParsed.try_from_config parse_size s with
                | .error e => .error e
                | .ok parsed => .ok (some parsed)
              | none => .ok none
            match swapStep with
            | .error e => .error e
            | .ok swap_parsed =>
              .ok ⟨psi_parsed, ram_parsed, swap_parsed, config.check_interval_ms,
                config.warn_reset_ms, config.sigterm_wait_ms, config.kill_strategy,
                ignore_names_regex, kill_targets_regex⟩

/-! ## Spec-side vocabulary for stating the claims -/

/-- A `/proc` entry passing the scan's pid / self / uid-ownership /
cmdline-readable / ignore-list filters (claim vocabulary; the executable
filters live inside find_champion_step). -/
def candB (P : SysParams) (ctx : RuntimeContext) (e : DirEntry) : Bool :=
  match parseU32? e.name with
  | none => false
  | some pid =>
    if pid = P.my_pid then false
    else
      let ownOk : Bool := P.is_root ||
        (match e.meta_uid with
         | some u => u = P.current_uid
         | none => false)
      if !ownOk then false
      else
        match e.cmdline with
        | none => false
        | some raw =>
          !(ctx.ignore_names_regex.any (fun p => p.matches (nullsToSpaces raw)))

/-- The pid an entry's name parses to. -/
def candPid (e : DirEntry) : Option Nat := parseU32? e.name

/-- The match index a candidate entry gets in the scan. -/
def candMI (ctx : RuntimeContext) (e : DirEntry) : Nat :=
  match e.cmdline with
  | some raw => matchIdxAux 0 ctx.kill_targets_regex (nullsToSpaces raw)
  | none => usizeMax

/-- The rss a candidate entry gets during the scan (before the post-loop
backfill). -/
def candRss (P : SysParams) (ctx : RuntimeContext) (e : DirEntry) : Nat :=
  match ctx.kill_strategy with
  | .largestRss => statmRss P.page_size e.statm
  | .highestOomScore => 0

/-- The score a candidate entry gets in the scan. -/
def candScore (P : SysParams) (ctx : RuntimeContext) (e : DirEntry) : Nat :=
  match ctx.kill_strategy with
  | .largestRss => statmRss P.page_size e.statm
  | .highestOomScore => oomScoreVal e.oom_score

/-- The start_time a candidate entry's stat file yields, if any. -/
def candStart (e : DirEntry) : Option Nat :=
  match e.stat with
  | some s => parseStartTime s
  | none => none

/-- The champion record an entry commits when it wins with start time t. -/
def newChamp (P : SysParams) (ctx : RuntimeContext) (e : DirEntry) (t : Nat) :
    Champion :=
  ⟨(candPid e).getD 0, candScore P ctx e, candRss P ctx e, candMI ctx e, t⟩

/-- Strict two-level preference: entry e would replace champion c. -/
def beats (P : SysParams) (ctx : RuntimeContext) (e : DirEntry) (c : Champion) :
    Prop :=
  candMI ctx e < c.match_index ∨
    (candMI ctx e = c.match_index ∧ c.score < candScore P ctx e)

instance (P ctx e c) : Decidable (beats P ctx e c) := by
  unfold beats; infer_instance

/-- Number of KillSequenceAborted events in an event list. -/
def abortCount (evs : List SentinelEvent) : Nat :=
  evs.countP fun ev =>
    match ev with
    | .killSequenceAborted _ => true
    | _ => false

/-- Whether an event is one of the three warn events. -/
def isWarnEvent : SentinelEvent → Bool
  | .lowMemoryWarn _ _ _ _ => true
  | .lowSwapWarn _ _ _ _ => true
  | .psiPressureWarn _ _ => true
  | _ => false

/-- Number of warn events in an event list. -/
def warnCount (evs : List SentinelEvent) : Nat := evs.countP isWarnEvent

/-- The amount_needed the claims ascribe to a RAM/swap kill verdict:
max(0, target − current_free), via truncated Nat subtraction. -/
def spec_needed (config : MemoryConfigParsed) (current_free total : Nat) : Nat :=
  calc_target config total - current_free

/-! ## Concrete instances used by witnesses and counterexamples -/

/-- Daemon-side parameters for the demos: non-root uid 1000, own pid 1,
4096-byte pages. -/
def P0 : SysParams := ⟨false, 1000, 1, 4096⟩

/-- A kill-engine context with no targets and no ignores. -/
def ctx0 : RuntimeContext :=
  { psi := none, ram := none, swap := none, check_interval_ms := 1000,
    warn_reset_ms := 30000, sigterm_wait_ms := 5000,
    kill_strategy := .largestRss, ignore_names_regex := [],
    kill_targets_regex := [] }

/-- A stat file for pid 4242 whose field 22 (starttime) is 12345. -/
def stat12345 : List Char :=
  "4242 (bigproc) S 1 2 3 4 5 6 7 8 9 10 11 12 13 14 15 16 17 18 12345".data

/-- A stat file for pid 4242 whose field 22 (starttime) is 67890. -/
def stat67890 : List Char :=
  "4242 (other) S 1 2 3 4 5 6 7 8 9 10 11 12 13 14 15 16 17 18 67890".data

/-- A healthy `/proc/4242` entry owned by uid 1000: 25 resident pages. -/
def entry4242 : DirEntry :=
  { name := "4242".data, meta_uid := some 1000,
    cmdline := some "bigproc".data, statm := some "50 25 0 0 0 0 0".data,
    oom_score := some "100".data, stat := some stat12345 }

/-- A smaller second process, 5 resident pages. -/
def entry77 : DirEntry :=
  { name := "77".data, meta_uid := some 1000,
    cmdline := some "smallproc".data, statm := some "10 5 0 0 0 0 0".data,
    oom_score := some "40".data, stat := some stat12345 }

/-- The champion entry4242 yields under P0/ctx0. -/
def c4242 : Champion := ⟨4242, 102400, 102400, usizeMax, 12345⟩

/-- Syscall outcomes where the victim's stat re-parses to a different
start time after the wait (PID reuse), with a SIGKILL error standing by
to show it is never consulted. -/
def envReuse : KillEnv := ⟨none, some stat67890, some .eperm⟩

/-- Syscall outcomes where the stat re-read shows the same start time and
the SIGKILL send then fails with ESRCH. -/
def envSigkillEsrch : KillEnv := ⟨none, some stat12345, some .esrch⟩

/-- Syscall outcomes for a clean SIGTERM→verify→SIGKILL kill. -/
def envKillOk : KillEnv := ⟨none, some stat12345, none⟩

/-- Syscall outcomes where the SIGTERM send itself fails with EPERM. -/
def envTermFail : KillEnv := ⟨some .eperm, some stat12345, none⟩

/-- A kill_sequence round whose scan finds entry4242 and whose kill
succeeds via SIGKILL. -/
def roundKillOk : Round := ⟨some [entry4242], fun _ => none, some "bigproc", envKillOk⟩

/-- A round whose kill fails at the SIGTERM send. -/
def roundTermFail : Round :=
  ⟨some [entry4242], fun _ => none, some "bigproc", envTermFail⟩

/-- A round that hits PID reuse during the wait. -/
def roundReuse : Round := ⟨some [entry4242], fun _ => none, some "bigproc", envReuse⟩

/-- A config whose psi section is present and threshold-free, but whose
derived PSI check interval (10 × 300000 ms) violates the PSI interval
bound, so psi parsing fails before the availability probe. -/
def cfgPsiIntervalBad : Config :=
  { psi := some ⟨none, none, none, none⟩
    ram := some ⟨none, some 10, none, some 5⟩
    swap := some ⟨none, none, none, none⟩
    check_interval_ms := 300000
    warn_reset_ms := 30000
    sigterm_wait_ms := 5000
    ignore_names := []
    kill_targets := []
    kill_strategy := .highestOomScore }

/-- Fresh monitor state at daemon start. -/
def st0 : MonitorState := ⟨none, 0, none, none, none, none, none, none⟩

/-- A monitor state whose last warn was at t = 0.5 s. -/
def stRecentWarn : MonitorState := ⟨none, 0, some 500000, none, none, none, none, none⟩

/-- RAM thresholds: kill below 1000 free bytes, no warn. -/
def rcKillBytes : MemoryConfigParsed := ⟨none, none, some 1000, none⟩

/-- RAM thresholds: warn below 1000 free bytes, no kill. -/
def rcWarnBytes : MemoryConfigParsed := ⟨some 1000, none, none, none⟩

/-- Monitor context with only the RAM kill threshold. -/
def ctxKill : RuntimeContext :=
  { psi := none, ram := some rcKillBytes, swap := none, check_interval_ms := 1000,
    warn_reset_ms := 30000, sigterm_wait_ms := 5000,
    kill_strategy := .highestOomScore, ignore_names_regex := [],
    kill_targets_regex := [] }

/-- Monitor context with only the RAM warn threshold. -/
def ctxWarn : RuntimeContext :=
  { psi := none, ram := some rcWarnBytes, swap := none, check_interval_ms := 1000,
    warn_reset_ms := 30000, sigterm_wait_ms := 5000,
    kill_strategy := .highestOomScore, ignore_names_regex := [],
    kill_targets_regex := [] }

/-- Readings at t = 1 s: 500 of 2000 memory bytes free, no swap. -/
def rT1 : Readings := ⟨500, 2000, 0, 0, none, 1000000⟩

/-- The same readings one second later. -/
def rT2 : Readings := ⟨500, 2000, 0, 0, none, 2000000⟩

/-- The percent-free rT1 yields (kept in unreduced form so that witness
evaluations are definitional). -/
def pfT1 : Rat := ((500 : Nat) : Rat) / ((2000 : Nat) : Rat) * 100

/-- The pending warn event rT1 produces under ctxWarn. -/
def peWarn : SentinelEvent :=
  .lowMemoryWarn 500 pfT1 "bytes" ((1000 : Nat) : Rat)

/-- The kill verdict event rT1 produces under ctxKill. -/
def evKill : SentinelEvent :=
  .killTriggered "LowMemory" ((500 : Nat) : Rat) ((1000 : Nat) : Rat) "bytes" (some 500)

/-- External size parser that rejects everything (unused by the demos). -/
def parse_size0 : String → Option Nat := fun _ => none

/-- External regex compiler that rejects everything (unused by the demos:
no demo pattern uses the `/…/` form). -/
def regex_compile0 : String → Option (List Char → Bool) := fun _ => none

/-- The compiled default kill_targets list. -/
def ktDefault : List Pattern :=
  [.literal "type=renderer".data, .literal "-contentproc".data]

/-- The parsed form of the sane-defaults psi section. -/
def psiParsedDefault : PsiConfigParsed := ⟨none, none, none, 10000⟩

/-- Scan invariant: what holding the current champion after processing
`pre` means, in terms of the candidate attributes (used to prove the
two-level-key claim by fold induction). -/
def scanInv (P : SysParams) (ctx : RuntimeContext) (pre : List DirEntry) :
    Option Champion → Prop
  | none => ∀ e ∈ pre, candB P ctx e = false
  | some c =>
    (∀ e ∈ pre, candB P ctx e = true → c.match_index ≤ candMI ctx e) ∧
    (∀ e ∈ pre, candB P ctx e = true → candMI ctx e = c.match_index →
      candScore P ctx e ≤ c.score) ∧
    ∃ l1 e l2, pre = l1 ++ e :: l2 ∧ candB P ctx e = true ∧
      candPid e = some c.pid ∧ candMI ctx e = c.match_index ∧
      candScore P ctx e = c.score ∧ candRss P ctx e = c.rss ∧
      candStart e = some c.start_time ∧
      ∀ x ∈ l1, candB P ctx x = true →
        (c.match_index < candMI ctx x ∨
          (candMI ctx x = c.match_index ∧ candScore P ctx x < c.score))

/-! ## Helper lemmas (shared; none of these is a claim theorem) -/

/-- Characterization of one scan step in terms of the candidate
attributes: non-candidates leave the champion alone; a candidate replaces
it exactly under the strict two-level preference, and only if its stat
file yields a start time. -/
theorem find_champion_step_eq (P : SysParams) (ctx : RuntimeContext)
    (champ : Option Champion) (e : DirEntry) :
    find_champion_step P ctx champ e =
      if candB P ctx e = true then
        match champ with
        | none =>
          match candStart e with
          | some t => some (newChamp P ctx e t)
          | none => none
        | some c =>
          if beats P ctx e c then
            match candStart e with
            | some t => some (newChamp P ctx e t)
            | none => some c
          else some c
      else champ := by
  obtain ⟨nm, mu, cmd, stm, oom, stt⟩ := e
  unfold find_champion_step candB candStart newChamp beats candPid candMI candRss candScore
  cases hpid : parseU32? nm with
  | none => rfl
  | some pid =>
    simp only
    by_cases hself : pid = P.my_pid
    · simp [hself]
    · simp only [if_neg hself]
      cases hown : (P.is_root ||
          (match mu with
           | some u => decide (u = P.current_uid)
           | none => false) : Bool) with
      | false => simp [hown]
      | true =>
        simp only [Bool.not_true, Bool.false_eq_true, if_false]
        cases cmd with
        | none => rfl
        | some raw =>
          simp only
          cases hign : (ctx.ignore_names_regex.any fun p => p.matches (nullsToSpaces raw)) with
          | true => simp
          | false =>
            simp only [Bool.not_false, Bool.false_eq_true, if_false, if_true]
            set mi := matchIdxAux 0 ctx.kill_targets_regex (nullsToSpaces raw) with hmidef
            set sc := (match ctx.kill_strategy with
              | KillStrategy.largestRss => statmRss P.page_size stm
              | KillStrategy.highestOomScore => oomScoreVal oom) with hscdef
            cases champ with
            | none =>
              simp only [Bool.false_eq_true, if_false]
              cases stt with
              | none => rfl
              | some s => cases hpt : parseStartTime s <;> simp [hpt]
            | some c =>
              dsimp only
              by_cases hb : (mi < c.match_index ∨ (mi = c.match_index ∧ c.score < sc))
              · rw [if_pos hb]
                have hA : ¬ (c.match_index < mi) := by
                  rcases hb with h | ⟨h, _⟩ <;> omega
                have hB : ¬ ((mi = c.match_index ∧ sc ≤ c.score) ∨ c.match_index < mi) := by
                  rcases hb with h | ⟨h, h2⟩
                  · rintro (⟨h3, -⟩ | h3) <;> omega
                  · rintro (⟨-, h3⟩ | h3) <;> omega
                have e1 : (decide (c.match_index < mi)) = false := decide_eq_false hA
                have e2 : (decide (mi = c.match_index) && decide (sc ≤ c.score)) = false := by
                  rw [Bool.and_eq_false_iff]
                  by_cases hm : mi = c.match_index
                  · right
                    refine decide_eq_false fun h3 => hB (Or.inl ⟨hm, h3⟩)
                  · left
                    exact decide_eq_false hm
                rw [e1, e2]
                simp only [Bool.or_false, Bool.false_eq_true, if_false]
                cases stt with
                | none => rfl
                | some s => cases hpt : parseStartTime s <;> simp [hpt]
              · rw [if_neg hb]
                push_neg at hb
                rcases Nat.lt_trichotomy c.match_index mi with h1 | h1 | h1
                · have e1 : (decide (c.match_index < mi)) = true := decide_eq_true h1
                  rw [e1]
                  simp
                · have e1 : (decide (c.match_index < mi)) = false := by
                    refine decide_eq_false ?_
                    omega
                  have hsc : sc ≤ c.score := by
                    have := hb.2 h1.symm
                    omega
                  have e2 : (decide (mi = c.match_index) && decide (sc ≤ c.score)) = true := by
                    rw [Bool.and_eq_true]
                    exact ⟨decide_eq_true h1.symm, decide_eq_true hsc⟩
                  rw [e1, e2]
                  simp
                · omega

/-- What passing the scan filters means, extracted from candB. -/
theorem candB_spec (P : SysParams) (ctx : RuntimeContext) (e : DirEntry)
    (h : candB P ctx e = true) :
    ∃ pid, parseU32? e.name = some pid ∧ pid ≠ P.my_pid ∧
      (P.is_root = false → e.meta_uid = some P.current_uid) ∧
      ∃ raw, e.cmdline = some raw ∧
        ∀ p ∈ ctx.ignore_names_regex, p.matches (nullsToSpaces raw) = false := by
  unfold candB at h
  cases hpid : parseU32? e.name with
  | none => rw [hpid] at h; exact absurd h (by simp)
  | some pid =>
    rw [hpid] at h
    simp only at h
    by_cases hself : pid = P.my_pid
    · rw [if_pos hself] at h; exact absurd h (by simp)
    · rw [if_neg hself] at h
      refine ⟨pid, rfl, hself, ?_⟩
      cases hown : (P.is_root ||
          (match e.meta_uid with
           | some u => decide (u = P.current_uid)
           | none => false) : Bool) with
      | false => rw [hown] at h; exact absurd h (by simp)
      | true =>
        rw [hown] at h
        simp only [Bool.not_true, Bool.false_eq_true, if_false] at h
        have huid : P.is_root = false → e.meta_uid = some P.current_uid := by
          intro hroot
          rw [hroot, Bool.false_or] at hown
          cases hmu : e.meta_uid with
          | none => rw [hmu] at hown; exact absurd hown (by simp)
          | some u =>
            rw [hmu] at hown
            have : u = P.current_uid := by simpa using hown
            rw [this]
        refine ⟨huid, ?_⟩
        cases hcmd : e.cmdline with
        | none => rw [hcmd] at h; exact absurd h (by simp)
        | some raw =>
          rw [hcmd] at h
          simp only [Bool.not_eq_true'] at h
          refine ⟨raw, rfl, ?_⟩
          intro p hp
          simpa using List.any_eq_false.mp h p hp

/-- If the fold over the entries produces a champion, it came from the
accumulator or from a filter-passing entry with that pid. -/
theorem scan_foldl_yields (P : SysParams) (ctx : RuntimeContext) :
    ∀ (l : List DirEntry) (acc : Option Champion) (c : Champion),
      l.foldl (find_champion_step P ctx) acc = some c →
      acc = some c ∨ ∃ e ∈ l, candB P ctx e = true ∧ candPid e = some c.pid := by
  intro l
  induction l with
  | nil => intro acc c h; exact Or.inl h
  | cons e l ih =>
    intro acc c h
    rw [List.foldl_cons] at h
    rcases ih (find_champion_step P ctx acc e) c h with hstep | ⟨e', he', hc, hp⟩
    · rw [find_champion_step_eq] at hstep
      by_cases hcand : candB P ctx e = true
      · rw [if_pos hcand] at hstep
        have hpid := (candB_spec P ctx e hcand).choose_spec.1
        cases acc with
        | none =>
          dsimp only at hstep
          cases hst : candStart e with
          | none => rw [hst] at hstep; exact absurd hstep (by simp)
          | some t =>
            rw [hst] at hstep
            simp only [Option.some.injEq] at hstep
            refine Or.inr ⟨e, List.mem_cons_self e l, hcand, ?_⟩
            rw [← hstep]
            unfold newChamp
            simp only
            unfold candPid
            rw [hpid]
            rfl
        | some c0 =>
          dsimp only at hstep
          by_cases hbt : beats P ctx e c0
          · rw [if_pos hbt] at hstep
            cases hst : candStart e with
            | none =>
              rw [hst] at hstep
              exact Or.inl hstep
            | some t =>
              rw [hst] at hstep
              simp only [Option.some.injEq] at hstep
              refine Or.inr ⟨e, List.mem_cons_self e l, hcand, ?_⟩
              rw [← hstep]
              unfold newChamp
              simp only
              unfold candPid
              rw [hpid]
              rfl
          · rw [if_neg hbt] at hstep
            exact Or.inl hstep
      · rw [if_neg hcand] at hstep
        exact Or.inl hstep
    · exact Or.inr ⟨e', List.mem_cons_of_mem e he', hc, hp⟩

/-- A filter-passing entry's pid field is exactly the parsed pid. -/
theorem candPid_getD (P : SysParams) (ctx : RuntimeContext) (e : DirEntry)
    (h : candB P ctx e = true) : candPid e = some ((candPid e).getD 0) := by
  obtain ⟨pid, hp, -⟩ := candB_spec P ctx e h
  unfold candPid
  rw [hp]
  rfl

/-- One scan step preserves the scan invariant. -/
theorem scanInv_step (P : SysParams) (ctx : RuntimeContext)
    (pre : List DirEntry) (acc : Option Champion) (e : DirEntry)
    (hInv : scanInv P ctx pre acc)
    (hstat : candB P ctx e = true → (candStart e).isSome) :
    scanInv P ctx (pre ++ [e]) (find_champion_step P ctx acc e) := by
  rw [find_champion_step_eq]
  by_cases hcand : candB P ctx e = true
  · rw [if_pos hcand]
    obtain ⟨t, ht⟩ := Option.isSome_iff_exists.mp (hstat hcand)
    cases acc with
    | none =>
      rw [ht]
      simp only [scanInv] at hInv ⊢
      refine ⟨?_, ?_, pre, e, [], by simp, hcand, ?_, rfl, rfl, rfl, ?_, ?_⟩
      · intro x hx hc
        rcases List.mem_append.mp hx with hpre | hsing
        · exact absurd hc (by simp [hInv x hpre])
        · rw [List.mem_singleton.mp hsing]
          exact Nat.le_refl _
      · intro x hx hc _
        rcases List.mem_append.mp hx with hpre | hsing
        · exact absurd hc (by simp [hInv x hpre])
        · rw [List.mem_singleton.mp hsing]
          exact Nat.le_refl _
      · exact candPid_getD P ctx e hcand
      · rw [ht]
        rfl
      · intro x hx hc
        exact absurd hc (by simp [hInv x hx])
    | some c =>
      dsimp only
      obtain ⟨hmin, hmax, l1, e0, l2, hpre, he0cand, he0pid, he0mi, he0sc, he0rss,
        he0st, hl1⟩ := hInv
      by_cases hbt : beats P ctx e c
      · rw [if_pos hbt, ht]
        simp only [scanInv, newChamp] at *
        refine ⟨?_, ?_, pre, e, [], by simp, hcand, ?_, rfl, rfl, rfl, ?_, ?_⟩
        · intro x hx hc
          rcases List.mem_append.mp hx with hx1 | hsing
          · have h1 := hmin x hx1 hc
            rcases hbt with h2 | ⟨h2, h3⟩ <;> omega
          · rw [List.mem_singleton.mp hsing]
        · intro x hx hc hxe
          rcases List.mem_append.mp hx with hx1 | hsing
          · have h1 := hmin x hx1 hc
            rcases hbt with h2 | ⟨h2, h3⟩
            · omega
            · have h4 := hmax x hx1 hc (by omega)
              omega
          · rw [List.mem_singleton.mp hsing]
        · exact candPid_getD P ctx e hcand
        · rw [ht]
        · intro x hx hc
          have h1 := hmin x hx hc
          rcases hbt with h2 | ⟨h2, h3⟩
          · left; omega
          · by_cases hx2 : candMI ctx x = c.match_index
            · right
              have h4 := hmax x hx hc hx2
              exact ⟨by omega, by omega⟩
            · left; omega
      · rw [if_neg hbt]
        simp only [scanInv] at *
        have hA : ¬ (candMI ctx e < c.match_index) := fun h => hbt (Or.inl h)
        refine ⟨?_, ?_, l1, e0, l2 ++ [e], by rw [hpre]; simp, he0cand, he0pid,
          he0mi, he0sc, he0rss, he0st, hl1⟩
        · intro x hx hc
          rcases List.mem_append.mp hx with hx1 | hsing
          · exact hmin x hx1 hc
          · rw [List.mem_singleton.mp hsing]
            omega
        · intro x hx hc hxe
          rcases List.mem_append.mp hx with hx1 | hsing
          · exact hmax x hx1 hc hxe
          · rw [List.mem_singleton.mp hsing] at hxe ⊢
            have hB : ¬ (c.score < candScore P ctx e) := fun h => hbt (Or.inr ⟨hxe, h⟩)
            omega
  · rw [if_neg hcand]
    have hf : candB P ctx e = false := by simpa using hcand
    cases acc with
    | none =>
      simp only [scanInv] at hInv ⊢
      intro x hx
      rcases List.mem_append.mp hx with hx1 | hsing
      · exact hInv x hx1
      · rw [List.mem_singleton.mp hsing]
        exact hf
    | some c =>
      obtain ⟨hmin, hmax, l1, e0, l2, hpre, he0cand, he0pid, he0mi, he0sc, he0rss,
        he0st, hl1⟩ := hInv
      simp only [scanInv]
      refine ⟨?_, ?_, l1, e0, l2 ++ [e], by rw [hpre]; simp, he0cand, he0pid,
        he0mi, he0sc, he0rss, he0st, hl1⟩
      · intro x hx hc
        rcases List.mem_append.mp hx with hx1 | hsing
        · exact hmin x hx1 hc
        · rw [List.mem_singleton.mp hsing] at hc
          rw [hc] at hf
          exact absurd hf (by simp)
      · intro x hx hc hxe
        rcases List.mem_append.mp hx with hx1 | hsing
        · exact hmax x hx1 hc hxe
        · rw [List.mem_singleton.mp hsing] at hc
          rw [hc] at hf
          exact absurd hf (by simp)

/-- The scan invariant holds for the fold over any entry list whose
candidates have readable stat files. -/
theorem scan_foldl_inv (P : SysParams) (ctx : RuntimeContext) :
    ∀ (l : List DirEntry) (acc : Option Champion) (pre : List DirEntry),
      scanInv P ctx pre acc →
      (∀ e ∈ l, candB P ctx e = true → (candStart e).isSome) →
      scanInv P ctx (pre ++ l) (l.foldl (find_champion_step P ctx) acc) := by
  intro l
  induction l with
  | nil =>
    intro acc pre h _
    simpa using h
  | cons e l ih =>
    intro acc pre hInv hstat
    rw [List.foldl_cons]
    have h1 := scanInv_step P ctx pre acc e hInv (hstat e (List.mem_cons_self e l))
    have h2 := ih (find_champion_step P ctx acc e) (pre ++ [e]) h1
      (fun x hx hc => hstat x (List.mem_cons_of_mem e hx) hc)
    rw [List.append_assoc] at h2
    simpa using h2

/-- getLast? of an append whose right part has a known last element. -/
theorem getLast?_append_right {α : Type} (l1 l2 : List α) (a : α)
    (h : l2.getLast? = some a) : (l1 ++ l2).getLast? = some a := by
  have h2 : l2 ≠ [] := by
    intro he
    rw [he] at h
    simp at h
  rw [List.getLast?_append_of_ne_nil l1 h2, h]

/-- kill_process either succeeds returning exactly the victim's rss with
no abort event, or fails returning None with a single abort event. -/
theorem kill_process_result_cases (env : KillEnv) (v : Champion) (nm : String) :
    ((kill_process env v nm).result = some v.rss ∧
      abortCount (kill_process env v nm).events = 0) ∨
    ((kill_process env v nm).result = none ∧
      ∃ re, (kill_process env v nm).events = [.killSequenceAborted re]) := by
  obtain ⟨st, sa, sk⟩ := env
  cases st with
  | some e =>
    cases e with
    | esrch => exact Or.inl ⟨rfl, rfl⟩
    | eperm => exact Or.inr ⟨rfl, _, rfl⟩
    | einval => exact Or.inr ⟨rfl, _, rfl⟩
  | none =>
    cases sa with
    | none => exact Or.inl ⟨rfl, rfl⟩
    | some s =>
      show _ ∨ _
      unfold kill_process
      dsimp only
      cases hpt : parseStartTime s with
      | none =>
        dsimp only
        cases sk with
        | none => exact Or.inl ⟨rfl, rfl⟩
        | some e => exact Or.inr ⟨rfl, _, rfl⟩
      | some t =>
        dsimp only
        by_cases hne : t ≠ v.start_time
        · rw [if_pos hne]
          exact Or.inl ⟨rfl, rfl⟩
        · rw [if_neg hne]
          cases sk with
          | none => exact Or.inl ⟨rfl, rfl⟩
          | some e => exact Or.inr ⟨rfl, _, rfl⟩

/-- A successful kill frees exactly the victim's rss and emits no abort. -/
theorem kill_process_success (env : KillEnv) (v : Champion) (nm : String)
    (f : Nat) (h : (kill_process env v nm).result = some f) :
    f = v.rss ∧ abortCount (kill_process env v nm).events = 0 := by
  rcases kill_process_result_cases env v nm with ⟨h1, h2⟩ | ⟨h1, h2⟩
  · rw [h1] at h
    exact ⟨(Option.some.injEq _ _ ▸ h).symm, h2⟩
  · rw [h1] at h
    cases h

/-- A failed kill emits exactly one abort event from kill_process itself. -/
theorem kill_process_failure (env : KillEnv) (v : Champion) (nm : String)
    (h : (kill_process env v nm).result = none) :
    ∃ re, (kill_process env v nm).events = [.killSequenceAborted re] := by
  rcases kill_process_result_cases env v nm with ⟨h1, -⟩ | ⟨-, h2⟩
  · rw [h1] at h
    cases h
  · exact h2

/-- The events of the scan phase: empty, or the single /proc-read-failure
abort. -/
theorem find_champion_scan_events (P : SysParams) (ctx : RuntimeContext)
    (r : Round) :
    (find_champion_scan P ctx r).2 = [] ∨
      (find_champion_scan P ctx r).2 = [.killSequenceAborted .procReadFailed] := by
  unfold find_champion_scan
  cases r.proc_entries with
  | none => exact Or.inr rfl
  | some es => exact Or.inl rfl

/-- One unfolding of kill_sequence on a round whose scan yields a
champion and whose kill succeeds: the freed rss is credited against the
requested amount. -/
theorem kill_sequence_cons_success (P : SysParams) (ctx : RuntimeContext)
    (r : Round) (rs : List Round) (es : List DirEntry) (c : Champion)
    (f n : Nat) (hpe : r.proc_entries = some es)
    (hfc : find_champion P ctx es r.statm_reread = some c)
    (hkp : (kill_process r.kill_env c (r.comm.getD "unknown")).result = some f) :
    kill_sequence P ctx (r :: rs) (some n) =
      if n ≤ f then
        some ([.killCandidateSelected c.pid (r.comm.getD "unknown") c.score
          c.rss c.match_index] ++
          (kill_process r.kill_env c (r.comm.getD "unknown")).events ++
          [.killSequenceAborted (.targetReached f)])
      else
        (kill_sequence P ctx rs (some (n - f))).map
          (fun rest => [.killCandidateSelected c.pid (r.comm.getD "unknown")
            c.score c.rss c.match_index] ++
            (kill_process r.kill_env c (r.comm.getD "unknown")).events ++ rest) := by
  have hscan : find_champion_scan P ctx r = (some c, []) := by
    unfold find_champion_scan
    rw [hpe]
    dsimp only
    rw [hfc]
  simp only [kill_sequence, hscan]
  rcases hout : kill_process r.kill_env c (r.comm.getD "unknown") with ⟨res, evs, sk⟩
  rw [hout] at hkp
  simp only at hkp
  subst hkp
  simp only
  by_cases hle : n ≤ f
  · rw [if_pos hle, if_pos hle]
    simp
  · rw [if_neg hle, if_neg hle]
    cases hrec : kill_sequence P ctx rs (some (n - f)) with
    | none => simp
    | some rest => simp

/-- A scan that yields a champion read /proc successfully: no scan event. -/
theorem find_champion_scan_some (P : SysParams) (ctx : RuntimeContext)
    (r : Round) (c : Champion) (evScan : List SentinelEvent)
    (h : find_champion_scan P ctx r = (some c, evScan)) :
    evScan = [] ∧ ∃ es, r.proc_entries = some es ∧
      find_champion P ctx es r.statm_reread = some c := by
  unfold find_champion_scan at h
  cases hpe : r.proc_entries with
  | none =>
    rw [hpe] at h
    simp at h
  | some es =>
    rw [hpe] at h
    dsimp only at h
    obtain ⟨h1, h2⟩ := Prod.mk.injEq .. ▸ h
    exact ⟨h2.symm, es, rfl, h1⟩

/-- Every terminating kill_sequence run with a requested amount ends in a
KillSequenceAborted event and emits one or two of them in total. -/
theorem kill_sequence_abort_shape (P : SysParams) (ctx : RuntimeContext) :
    ∀ (rounds : List Round) (n : Nat) (evs : List SentinelEvent),
      kill_sequence P ctx rounds (some n) = some evs →
      (∃ re, evs.getLast? = some (.killSequenceAborted re)) ∧
        (abortCount evs = 1 ∨ abortCount evs = 2) := by
  intro rounds
  induction rounds with
  | nil =>
    intro n evs h
    cases h
  | cons r rs ih =>
    intro n evs h
    simp only [kill_sequence] at h
    rcases hscan : find_champion_scan P ctx r with ⟨copt, evScan⟩
    rw [hscan] at h
    have hsev : evScan = [] ∨ evScan = [.killSequenceAborted .procReadFailed] := by
      have := find_champion_scan_events P ctx r
      rw [hscan] at this
      exact this
    cases copt with
    | none =>
      dsimp only at h
      have hevs : evs = evScan ++ [.killSequenceAborted .noCandidates] :=
        (Option.some.injEq _ _ ▸ h).symm
      subst hevs
      constructor
      · exact ⟨_, getLast?_append_right _ _ _ rfl⟩
      · rcases hsev with hs | hs <;> rw [hs]
        · exact Or.inl rfl
        · exact Or.inr rfl
    | some champion =>
      dsimp only at h
      obtain ⟨hsz, es, hpe, hfc⟩ := find_champion_scan_some P ctx r champion evScan hscan
      subst hsz
      rcases hout : (kill_process r.kill_env champion (r.comm.getD "unknown")).result
        with _ | f
      · rw [hout] at h
        dsimp only at h
        obtain ⟨re, hre⟩ := kill_process_failure _ _ _ hout
        have hevs := (Option.some.injEq _ _ ▸ h).symm
        subst hevs
        refine ⟨⟨_, getLast?_append_right _ _ _ rfl⟩, Or.inr ?_⟩
        simp [abortCount, hre, List.countP_append, List.countP_cons]
      · rw [hout] at h
        dsimp only at h
        obtain ⟨hf, habort0⟩ := kill_process_success _ _ _ _ hout
        by_cases hle : n ≤ f
        · rw [if_pos hle] at h
          have hevs := (Option.some.injEq _ _ ▸ h).symm
          subst hevs
          refine ⟨⟨_, getLast?_append_right _ _ _ rfl⟩, Or.inl ?_⟩
          simp only [abortCount, List.countP_append, List.countP_cons,
            List.countP_nil, List.nil_append] at habort0 ⊢
          simp [habort0]
        · rw [if_neg hle] at h
          cases hrec : kill_sequence P ctx rs (some (n - f)) with
          | none =>
            rw [hrec] at h
            cases h
          | some rest =>
            rw [hrec] at h
            have hevs := (Option.some.injEq _ _ ▸ h).symm
            subst hevs
            obtain ⟨⟨re, hlast⟩, hcount⟩ := ih (n - f) rest hrec
            refine ⟨⟨re, getLast?_append_right _ _ _ hlast⟩, ?_⟩
            simp only [abortCount, List.countP_append, List.countP_cons,
              List.countP_nil, List.nil_append] at habort0 hcount ⊢
            simp only [habort0]
            simpa using hcount

/-- Provided each scanned champion has nonzero rss, kill_sequence with a
requested amount n terminates within n+1 rounds. -/
theorem kill_sequence_total (P : SysParams) (ctx : RuntimeContext) :
    ∀ (rounds : List Round) (n : Nat),
      n + 1 ≤ rounds.length →
      (∀ r ∈ rounds, ∀ es c, r.proc_entries = some es →
        find_champion P ctx es r.statm_reread = some c → 1 ≤ c.rss) →
      (kill_sequence P ctx rounds (some n)).isSome = true := by
  intro rounds
  induction rounds with
  | nil =>
    intro n hlen _
    simp at hlen
  | cons r rs ih =>
    intro n hlen hrss
    simp only [kill_sequence]
    rcases hscan : find_champion_scan P ctx r with ⟨copt, evScan⟩
    cases copt with
    | none => rfl
    | some champion =>
      dsimp only
      obtain ⟨hsz, es, hpe, hfc⟩ := find_champion_scan_some P ctx r champion evScan hscan
      rcases hout : (kill_process r.kill_env champion (r.comm.getD "unknown")).result
        with _ | f
      · rfl
      · dsimp only
        obtain ⟨hf, -⟩ := kill_process_success _ _ _ _ hout
        by_cases hle : n ≤ f
        · rw [if_pos hle]
          rfl
        · rw [if_neg hle]
          have hchamp : 1 ≤ champion.rss :=
            hrss r (List.mem_cons_self r rs) es champion hpe hfc
          have hrec := ih (n - f)
            (by
              simp only [List.length_cons] at hlen
              omega)
            (fun x hx es2 c2 h1 h2 => hrss x (List.mem_cons_of_mem r hx) es2 c2 h1 h2)
          cases hrec2 : kill_sequence P ctx rs (some (n - f)) with
          | none =>
            rw [hrec2] at hrec
            cases hrec
          | some rest => rfl

/-- The RAM block never touches the warn rate-limit state. -/
theorem ram_block_lwt (ctx : RuntimeContext) (st : MonitorState) (r : Readings)
    (p : Option SentinelEvent) :
    (ram_block ctx st r p).st.last_warn_time = st.last_warn_time := by
  unfold ram_block
  cases ctx.ram with
  | none => rfl
  | some rc =>
    dsimp only
    by_cases h0 : r.mem_total = 0
    · rw [if_pos h0]
    · rw [if_neg h0]
      cases check_kill rc r.mem_available ((r.mem_available : Rat) / (r.mem_total : Rat) * 100) with
      | some thr => rcases thr with ⟨a, b⟩; rfl
      | none =>
        dsimp only
        cases check_warn rc r.mem_available ((r.mem_available : Rat) / (r.mem_total : Rat) * 100) with
        | some thr => rcases thr with ⟨a, b⟩; rfl
        | none => rfl

/-- The swap block never touches the warn rate-limit state. -/
theorem swap_block_lwt (ctx : RuntimeContext) (st : MonitorState) (r : Readings)
    (p : Option SentinelEvent) :
    (swap_block ctx st r p).st.last_warn_time = st.last_warn_time := by
  unfold swap_block
  cases ctx.swap with
  | none => rfl
  | some sc =>
    dsimp only
    by_cases h0 : r.swap_total = 0
    · rw [if_pos h0]
    · rw [if_neg h0]
      cases check_kill sc r.swap_free ((r.swap_free : Rat) / (r.swap_total : Rat) * 100) with
      | some thr => rcases thr with ⟨a, b⟩; rfl
      | none =>
        dsimp only
        cases check_warn sc r.swap_free ((r.swap_free : Rat) / (r.swap_total : Rat) * 100) with
        | some thr => rcases thr with ⟨a, b⟩; rfl
        | none => rfl

/-- The PSI block never touches the warn rate-limit state. -/
theorem psi_block_lwt (ctx : RuntimeContext) (st : MonitorState) (r : Readings)
    (p : Option SentinelEvent) :
    (psi_block ctx st r p).st.last_warn_time = st.last_warn_time := by
  unfold psi_block
  cases ctx.psi with
  | none => rfl
  | some pc =>
    dsimp only
    by_cases h0 : (r.now - st.last_psi_time) / 1000 < pc.check_interval_ms
    · rw [if_pos h0]
    · rw [if_neg h0]
      cases r.psi_read with
      | none => rfl
      | some current =>
        dsimp only
        cases st.last_psi_total with
        | none => rfl
        | some last =>
          dsimp only
          by_cases hk : (match pc.kill_max_percent with
              | some kmax => decide (kmax <
                (if 0 < ((r.now - st.last_psi_time : Nat) : Rat) then
                  ((current - last : Nat) : Rat) / ((r.now - st.last_psi_time : Nat) : Rat) * 100
                 else 0))
              | none => false) = true
          · rw [if_pos hk]
          · rw [if_neg hk]
            cases p with
            | some e => rfl
            | none =>
              dsimp only
              cases pc.warn_max_percent with
              | none => rfl
              | some wmax =>
                dsimp only
                by_cases hw : wmax <
                    (if 0 < ((r.now - st.last_psi_time : Nat) : Rat) then
                      ((current - last : Nat) : Rat) / ((r.now - st.last_psi_time : Nat) : Rat) * 100
                     else 0)
                · rw [if_pos hw]
                · rw [if_neg hw]

/-- The three priority blocks together never touch the warn rate-limit
state. -/
theorem blocks_out_lwt (ctx : RuntimeContext) (st : MonitorState) (r : Readings) :
    (blocks_out ctx st r).st.last_warn_time = st.last_warn_time := by
  unfold blocks_out
  simp only
  cases h1 : (ram_block ctx st r none).kill with
  | some e =>
    simp only [h1]
    exact ram_block_lwt ctx st r none
  | none =>
    simp only [h1]
    cases h2 : (swap_block ctx (ram_block ctx st r none).st r (ram_block ctx st r none).pending).kill with
    | some e =>
      simp only [h2]
      rw [swap_block_lwt, ram_block_lwt]
    | none =>
      simp only [h2]
      rw [psi_block_lwt, swap_block_lwt, ram_block_lwt]

/-- can_warn only looks at last_warn_time. -/
theorem can_warn_congr (ctx : RuntimeContext) (st1 st2 : MonitorState) (now : Nat)
    (h : st1.last_warn_time = st2.last_warn_time) :
    can_warn ctx st1 now = can_warn ctx st2 now := by
  unfold can_warn
  rw [h]

/-- The RAM block's pending slot: passed through, or a fresh warn event. -/
theorem ram_block_pending_shape (ctx : RuntimeContext) (st : MonitorState)
    (r : Readings) (p : Option SentinelEvent) (pe : SentinelEvent)
    (h : (ram_block ctx st r p).pending = some pe) :
    p = some pe ∨ isWarnEvent pe = true := by
  unfold ram_block at h
  cases hram : ctx.ram with
  | none =>
    rw [hram] at h
    exact Or.inl h
  | some rc =>
    rw [hram] at h
    dsimp only at h
    by_cases h0 : r.mem_total = 0
    · rw [if_pos h0] at h
      exact Or.inl h
    · rw [if_neg h0] at h
      cases hk : check_kill rc r.mem_available ((r.mem_available : Rat) / (r.mem_total : Rat) * 100) with
      | some thr =>
        rcases thr with ⟨a, b⟩
        rw [hk] at h
        exact Or.inl h
      | none =>
        rw [hk] at h
        dsimp only at h
        cases hw : check_warn rc r.mem_available ((r.mem_available : Rat) / (r.mem_total : Rat) * 100) with
        | some thr =>
          rcases thr with ⟨a, b⟩
          rw [hw] at h
          dsimp only at h
          cases p with
          | none =>
            dsimp only at h
            rw [← Option.some.inj h]
            exact Or.inr rfl
          | some e => exact Or.inl h
        | none =>
          rw [hw] at h
          exact Or.inl h

/-- The swap block's pending slot: passed through, or a fresh warn event. -/
theorem swap_block_pending_shape (ctx : RuntimeContext) (st : MonitorState)
    (r : Readings) (p : Option SentinelEvent) (pe : SentinelEvent)
    (h : (swap_block ctx st r p).pending = some pe) :
    p = some pe ∨ isWarnEvent pe = true := by
  unfold swap_block at h
  cases hswap : ctx.swap with
  | none =>
    rw [hswap] at h
    exact Or.inl h
  | some sc =>
    rw [hswap] at h
    dsimp only at h
    by_cases h0 : r.swap_total = 0
    · rw [if_pos h0] at h
      exact Or.inl h
    · rw [if_neg h0] at h
      cases hk : check_kill sc r.swap_free ((r.swap_free : Rat) / (r.swap_total : Rat) * 100) with
      | some thr =>
        rcases thr with ⟨a, b⟩
        rw [hk] at h
        exact Or.inl h
      | none =>
        rw [hk] at h
        dsimp only at h
        cases hw : check_warn sc r.swap_free ((r.swap_free : Rat) / (r.swap_total : Rat) * 100) with
        | some thr =>
          rcases thr with ⟨a, b⟩
          rw [hw] at h
          dsimp only at h
          cases p with
          | none =>
            dsimp only at h
            rw [← Option.some.inj h]
            exact Or.inr rfl
          | some e => exact Or.inl h
        | none =>
          rw [hw] at h
          exact Or.inl h

/-- The PSI block's pending slot: passed through, or a fresh warn event. -/
theorem psi_block_pending_shape (ctx : RuntimeContext) (st : MonitorState)
    (r : Readings) (p : Option SentinelEvent) (pe : SentinelEvent)
    (h : (psi_block ctx st r p).pending = some pe) :
    p = some pe ∨ isWarnEvent pe = true := by
  unfold psi_block at h
  cases hpsi : ctx.psi with
  | none =>
    rw [hpsi] at h
    exact Or.inl h
  | some pc =>
    rw [hpsi] at h
    dsimp only at h
    by_cases h0 : (r.now - st.last_psi_time) / 1000 < pc.check_interval_ms
    · rw [if_pos h0] at h
      exact Or.inl h
    · rw [if_neg h0] at h
      cases hrd : r.psi_read with
      | none =>
        rw [hrd] at h
        exact Or.inl h
      | some current =>
        rw [hrd] at h
        dsimp only at h
        cases hlast : st.last_psi_total with
        | none =>
          rw [hlast] at h
          exact Or.inl h
        | some last =>
          rw [hlast] at h
          dsimp only at h
          by_cases hk : (match pc.kill_max_percent with
              | some kmax => decide (kmax <
                (if 0 < ((r.now - st.last_psi_time : Nat) : Rat) then
                  ((current - last : Nat) : Rat) / ((r.now - st.last_psi_time : Nat) : Rat) * 100
                 else 0))
              | none => false) = true
          · rw [if_pos hk] at h
            exact Or.inl h
          · rw [if_neg hk] at h
            cases p with
            | some e => exact Or.inl h
            | none =>
              dsimp only at h
              cases hwm : pc.warn_max_percent with
              | none =>
                rw [hwm] at h
                exact absurd h (by simp)
              | some wmax =>
                rw [hwm] at h
                dsimp only at h
                by_cases hw : wmax <
                    (if 0 < ((r.now - st.last_psi_time : Nat) : Rat) then
                      ((current - last : Nat) : Rat) / ((r.now - st.last_psi_time : Nat) : Rat) * 100
                     else 0)
                · rw [if_pos hw] at h
                  rw [← Option.some.inj h]
                  exact Or.inr rfl
                · rw [if_neg hw] at h
                  exact absurd h (by simp)

/-- Any pending warn produced by a tick is one of the three warn events. -/
theorem blocks_out_pending_warn (ctx : RuntimeContext) (st : MonitorState)
    (r : Readings) (pe : SentinelEvent)
    (h : (blocks_out ctx st r).pending = some pe) : isWarnEvent pe = true := by
  unfold blocks_out at h
  simp only at h
  cases h1 : (ram_block ctx st r none).kill with
  | some e =>
    simp only [h1] at h
    rcases ram_block_pending_shape ctx st r none pe h with h2 | h2
    · cases h2
    · exact h2
  | none =>
    simp only [h1] at h
    cases h2 : (swap_block ctx (ram_block ctx st r none).st r (ram_block ctx st r none).pending).kill with
    | some e =>
      simp only [h2] at h
      rcases swap_block_pending_shape ctx _ r _ pe h with h3 | h3
      · rcases ram_block_pending_shape ctx st r none pe h3 with h4 | h4
        · cases h4
        · exact h4
      · exact h3
    | none =>
      simp only [h2] at h
      rcases psi_block_pending_shape ctx _ r _ pe h with h3 | h3
      · rcases swap_block_pending_shape ctx _ r _ pe h3 with h4 | h4
        · rcases ram_block_pending_shape ctx st r none pe h4 with h5 | h5
          · cases h5
          · exact h5
        · exact h4
      · exact h3

/-- A kill verdict out of the RAM block carries the LowMemory trigger and
the calc_needed amount for the RAM gauge. -/
theorem ram_block_kill_shape (ctx : RuntimeContext) (st : MonitorState)
    (r : Readings) (p : Option SentinelEvent) (ev : SentinelEvent)
    (h : (ram_block ctx st r p).kill = some ev) :
    ∃ rc obs thr ty, ctx.ram = some rc ∧
      ev = .killTriggered "LowMemory" obs thr ty
        (calc_needed rc r.mem_available r.mem_total) := by
  unfold ram_block at h
  cases hram : ctx.ram with
  | none =>
    rw [hram] at h
    cases h
  | some rc =>
    rw [hram] at h
    dsimp only at h
    by_cases h0 : r.mem_total = 0
    · rw [if_pos h0] at h
      cases h
    · rw [if_neg h0] at h
      cases hk : check_kill rc r.mem_available ((r.mem_available : Rat) / (r.mem_total : Rat) * 100) with
      | some thr =>
        rcases thr with ⟨a, b⟩
        rw [hk] at h
        dsimp only at h
        exact ⟨rc, _, a, b, rfl, (Option.some.inj h).symm⟩
      | none =>
        rw [hk] at h
        dsimp only at h
        cases hw : check_warn rc r.mem_available ((r.mem_available : Rat) / (r.mem_total : Rat) * 100) with
        | some thr =>
          rcases thr with ⟨a, b⟩
          rw [hw] at h
          cases h
        | none =>
          rw [hw] at h
          cases h

/-- A kill verdict out of the swap block carries the LowSwap trigger and
the calc_needed amount for the swap gauge. -/
theorem swap_block_kill_shape (ctx : RuntimeContext) (st : MonitorState)
    (r : Readings) (p : Option SentinelEvent) (ev : SentinelEvent)
    (h : (swap_block ctx st r p).kill = some ev) :
    ∃ sc obs thr ty, ctx.swap = some sc ∧
      ev = .killTriggered "LowSwap" obs thr ty
        (calc_needed sc r.swap_free r.swap_total) := by
  unfold swap_block at h
  cases hswap : ctx.swap with
  | none =>
    rw [hswap] at h
    cases h
  | some sc =>
    rw [hswap] at h
    dsimp only at h
    by_cases h0 : r.swap_total = 0
    · rw [if_pos h0] at h
      cases h
    · rw [if_neg h0] at h
      cases hk : check_kill sc r.swap_free ((r.swap_free : Rat) / (r.swap_total : Rat) * 100) with
      | some thr =>
        rcases thr with ⟨a, b⟩
        rw [hk] at h
        dsimp only at h
        exact ⟨sc, _, a, b, rfl, (Option.some.inj h).symm⟩
      | none =>
        rw [hk] at h
        dsimp only at h
        cases hw : check_warn sc r.swap_free ((r.swap_free : Rat) / (r.swap_total : Rat) * 100) with
        | some thr =>
          rcases thr with ⟨a, b⟩
          rw [hw] at h
          cases h
        | none =>
          rw [hw] at h
          cases h

/-- A kill verdict out of the PSI block carries the PsiPressure trigger. -/
theorem psi_block_kill_shape (ctx : RuntimeContext) (st : MonitorState)
    (r : Readings) (p : Option SentinelEvent) (ev : SentinelEvent)
    (h : (psi_block ctx st r p).kill = some ev) :
    ∃ obs thr amt, ev = .killTriggered "PsiPressure" obs thr "percent" amt := by
  unfold psi_block at h
  cases hpsi : ctx.psi with
  | none =>
    rw [hpsi] at h
    cases h
  | some pc =>
    rw [hpsi] at h
    dsimp only at h
    by_cases h0 : (r.now - st.last_psi_time) / 1000 < pc.check_interval_ms
    · rw [if_pos h0] at h
      cases h
    · rw [if_neg h0] at h
      cases hrd : r.psi_read with
      | none =>
        rw [hrd] at h
        cases h
      | some current =>
        rw [hrd] at h
        dsimp only at h
        cases hlast : st.last_psi_total with
        | none =>
          rw [hlast] at h
          cases h
        | some last =>
          rw [hlast] at h
          dsimp only at h
          by_cases hk : (match pc.kill_max_percent with
              | some kmax => decide (kmax <
                (if 0 < ((r.now - st.last_psi_time : Nat) : Rat) then
                  ((current - last : Nat) : Rat) / ((r.now - st.last_psi_time : Nat) : Rat) * 100
                 else 0))
              | none => false) = true
          · rw [if_pos hk] at h
            exact ⟨_, _, _, (Option.some.inj h).symm⟩
          · rw [if_neg hk] at h
            cases p with
            | some e => cases h
            | none =>
              dsimp only at h
              cases hwm : pc.warn_max_percent with
              | none =>
                rw [hwm] at h
                cases h
              | some wmax =>
                rw [hwm] at h
                dsimp only at h
                by_cases hw : wmax <
                    (if 0 < ((r.now - st.last_psi_time : Nat) : Rat) then
                      ((current - last : Nat) : Rat) / ((r.now - st.last_psi_time : Nat) : Rat) * 100
                     else 0)
                · rw [if_pos hw] at h
                  cases h
                · rw [if_neg hw] at h
                  cases h

/-- A tick's kill verdict comes from one of the three blocks, with the
block-specific trigger and amount. -/
theorem blocks_out_kill_origin (ctx : RuntimeContext) (st : MonitorState)
    (r : Readings) (ev : SentinelEvent)
    (h : (blocks_out ctx st r).kill = some ev) :
    (∃ rc obs thr ty, ctx.ram = some rc ∧
      ev = .killTriggered "LowMemory" obs thr ty
        (calc_needed rc r.mem_available r.mem_total)) ∨
    (∃ sc obs thr ty, ctx.swap = some sc ∧
      ev = .killTriggered "LowSwap" obs thr ty
        (calc_needed sc r.swap_free r.swap_total)) ∨
    (∃ obs thr amt, ev = .killTriggered "PsiPressure" obs thr "percent" amt) := by
  unfold blocks_out at h
  simp only at h
  cases h1 : (ram_block ctx st r none).kill with
  | some e =>
    simp only [h1] at h
    exact Or.inl (ram_block_kill_shape ctx st r none ev (h1.trans (congrArg some (Option.some.inj h))))
  | none =>
    simp only [h1] at h
    cases h2 : (swap_block ctx (ram_block ctx st r none).st r (ram_block ctx st r none).pending).kill with
    | some e =>
      simp only [h2] at h
      exact Or.inr (Or.inl (swap_block_kill_shape ctx _ r _ ev
        (h2.trans (congrArg some (Option.some.inj h)))))
    | none =>
      simp only [h2] at h
      exact Or.inr (Or.inr (psi_block_kill_shape ctx _ r _ ev h))

/-- Monitor::check in terms of its blocks (definitional unfolding). -/
theorem Monitor_check_eq (ctx : RuntimeContext) (st : MonitorState)
    (r : Readings) (dbg : Bool) :
    Monitor.check ctx st r dbg =
      match (blocks_out ctx st r).kill with
      | some ev => ((blocks_out ctx st r).st, [], .kill ev)
      | none =>
        match (blocks_out ctx st r).pending with
        | some ev =>
          if can_warn ctx (blocks_out ctx st r).st r.now then
            ({ (blocks_out ctx st r).st with last_warn_time := some r.now },
              (if dbg then
                [.monitorHeartbeat (blocks_out ctx st r).st.ram_bytes
                  (blocks_out ctx st r).st.ram_percent
                  (blocks_out ctx st r).st.swap_bytes
                  (blocks_out ctx st r).st.swap_percent
                  (blocks_out ctx st r).st.psi_pressure]
               else []) ++ [ev], .warn)
          else ((blocks_out ctx st r).st,
            (if dbg then
              [.monitorHeartbeat (blocks_out ctx st r).st.ram_bytes
                (blocks_out ctx st r).st.ram_percent
                (blocks_out ctx st r).st.swap_bytes
                (blocks_out ctx st r).st.swap_percent
                (blocks_out ctx st r).st.psi_pressure]
             else []), .normal)
        | none => ((blocks_out ctx st r).st,
            (if dbg then
              [.monitorHeartbeat (blocks_out ctx st r).st.ram_bytes
                (blocks_out ctx st r).st.ram_percent
                (blocks_out ctx st r).st.swap_bytes
                (blocks_out ctx st r).st.swap_percent
                (blocks_out ctx st r).st.psi_pressure]
             else []), .normal) := rfl

/-! ## Claim theorems -/

/-- C1: for every victim processed by kill_process, if after the
sigterm_wait_ms sleep the victim's stat file is readable and its parsed
start_time differs from the start_time captured at champion selection,
then the SIGKILL send is never reached (sigkill_attempted = false in the
returned outcome), the kill is treated as success returning the victim's
rss, and kill_sequence credits that rss toward amount_needed (target
reached if rss covers it, otherwise the remaining amount drops by rss). -/
theorem C1_pid_reuse_no_sigkill
    (env : KillEnv) (victim : Champion) (name : String) (s : List Char) (t : Nat)
    (hterm : env.sigterm_result = none)
    (hstat : env.stat_after_wait = some s)
    (hparse : parseStartTime s = some t)
    (hne : t ≠ victim.start_time) :
    kill_process env victim name =
      ⟨some victim.rss, [.killCandidateIgnored victim.pid .pidReuse], false⟩ ∧
    ∀ (P : SysParams) (ctx : RuntimeContext) (r : Round) (rs : List Round)
      (es : List DirEntry) (n : Nat),
      r.proc_entries = some es →
      find_champion P ctx es r.statm_reread = some victim →
      r.kill_env = env →
      kill_sequence P ctx (r :: rs) (some n) =
        if n ≤ victim.rss then
          some [.killCandidateSelected victim.pid (r.comm.getD "unknown")
              victim.score victim.rss victim.match_index,
            .killCandidateIgnored victim.pid .pidReuse,
            .killSequenceAborted (.targetReached victim.rss)]
        else
          (kill_sequence P ctx rs (some (n - victim.rss))).map
            (fun rest => [.killCandidateSelected victim.pid (r.comm.getD "unknown")
                victim.score victim.rss victim.match_index,
              .killCandidateIgnored victim.pid .pidReuse] ++ rest) := by
  have hgen : ∀ nm : String, kill_process env victim nm =
      ⟨some victim.rss, [.killCandidateIgnored victim.pid .pidReuse], false⟩ := by
    intro nm
    obtain ⟨a, b, c⟩ := env
    dsimp only at hterm hstat
    subst hterm
    subst hstat
    unfold kill_process
    dsimp only
    rw [hparse]
    dsimp only
    rw [if_pos hne]
  refine ⟨hgen name, ?_⟩
  intro P ctx r rs es n hpe hfc henv
  have hkp : (kill_process r.kill_env victim (r.comm.getD "unknown")).result =
      some victim.rss := by
    rw [henv, hgen _]
  rw [kill_sequence_cons_success P ctx r rs es victim victim.rss n hpe hfc hkp]
  by_cases hle : n ≤ victim.rss
  · rw [if_pos hle, if_pos hle, henv, hgen _]
    rfl
  · rw [if_neg hle, if_neg hle]
    cases kill_sequence P ctx rs (some (n - victim.rss)) with
    | none => rfl
    | some rest =>
      simp only [Option.map_some, henv, hgen _]
      rfl

/-- C1 witness: concrete PID 4242 captured at start_time 12345 whose stat
re-parses to 67890 after the wait; the kill is a success without SIGKILL
and a 50000-byte request is covered by the 102400-byte rss. -/
theorem C1_pid_reuse_no_sigkill_witness :
    (envReuse.sigterm_result = none ∧ envReuse.stat_after_wait = some stat67890 ∧
      parseStartTime stat67890 = some 67890 ∧ (67890 : Nat) ≠ c4242.start_time) ∧
    kill_process envReuse c4242 "bigproc" =
      ⟨some c4242.rss, [.killCandidateIgnored c4242.pid .pidReuse], false⟩ ∧
    kill_sequence P0 ctx0 [roundReuse] (some 50000) =
      some [.killCandidateSelected 4242 "bigproc" 102400 102400 usizeMax,
        .killCandidateIgnored 4242 .pidReuse,
        .killSequenceAborted (.targetReached 102400)] := by
  have h := C1_pid_reuse_no_sigkill envReuse c4242 "bigproc" stat67890 67890
    rfl rfl (by decide) (by decide)
  refine ⟨⟨rfl, rfl, by decide, by decide⟩, h.1, ?_⟩
  have h2 := h.2 P0 ctx0 roundReuse [] [entry4242] 50000 rfl (by decide) rfl
  rw [h2, if_pos (by decide : (50000 : Nat) ≤ c4242.rss)]
  rfl

/-- C2: a champion returned by the /proc scan is never the daemon's own
pid, comes from an entry whose directory uid (when the daemon is
non-root) equals the daemon's effective uid, and whose cmdline (with null
bytes replaced by spaces) matches no ignore pattern. -/
theorem C2_champion_filters (P : SysParams) (ctx : RuntimeContext)
    (entries : List DirEntry) (reread : Nat → Option (List Char)) (c : Champion)
    (h : find_champion P ctx entries reread = some c) :
    c.pid ≠ P.my_pid ∧
    ∃ e ∈ entries, candPid e = some c.pid ∧
      (P.is_root = false → e.meta_uid = some P.current_uid) ∧
      ∃ raw, e.cmdline = some raw ∧
        ∀ p ∈ ctx.ignore_names_regex, p.matches (nullsToSpaces raw) = false := by
  unfold find_champion at h
  cases hf : entries.foldl (find_champion_step P ctx) none with
  | none =>
    rw [hf] at h
    cases h
  | some c0 =>
    rw [hf] at h
    dsimp only at h
    have hpid : c.pid = c0.pid := by
      by_cases hr : c0.rss = 0
      · rw [if_pos hr] at h
        rw [← Option.some.inj h]
      · rw [if_neg hr] at h
        rw [← Option.some.inj h]
    rcases scan_foldl_yields P ctx entries none c0 hf with hacc | ⟨e, he, hcand, hp⟩
    · cases hacc
    · obtain ⟨pid, hpe, hnself, huid, raw, hraw, hig⟩ := candB_spec P ctx e hcand
      have hpc0 : pid = c0.pid := by
        unfold candPid at hp
        rw [hpe] at hp
        exact Option.some.inj hp
      constructor
      · rw [hpid, ← hpc0]
        exact hnself
      · refine ⟨e, he, ?_, huid, raw, hraw, hig⟩
        rw [hpid]
        exact hp

/-- C2 witness: the scan over a single healthy entry yields pid 4242,
distinct from the daemon pid 1, owned by uid 1000, with no ignore
patterns configured. -/
theorem C2_champion_filters_witness :
    find_champion P0 ctx0 [entry4242] (fun _ => none) = some c4242 ∧
    c4242.pid ≠ P0.my_pid ∧
    (∃ e ∈ [entry4242], candPid e = some c4242.pid ∧
      (P0.is_root = false → e.meta_uid = some P0.current_uid) ∧
      ∃ raw, e.cmdline = some raw ∧
        ∀ p ∈ ctx0.ignore_names_regex, p.matches (nullsToSpaces raw) = false) := by
  have h := C2_champion_filters P0 ctx0 [entry4242] (fun _ => none) c4242 (by decide)
  exact ⟨by decide, h.1, h.2⟩

/-- C3: over a fixed snapshot of candidate processes (every
filter-passing entry's stat file yields a start time), the returned
champion attains the minimum match_index among filter-passing
candidates, the maximum score within that match_index class, and is the
first-encountered candidate attaining that (match_index, score) pair. -/
theorem C3_champion_two_level_key (P : SysParams) (ctx : RuntimeContext)
    (entries : List DirEntry) (reread : Nat → Option (List Char)) (c : Champion)
    (hstat : ∀ e ∈ entries, candB P ctx e = true → (candStart e).isSome)
    (h : find_champion P ctx entries reread = some c) :
    (∀ e ∈ entries, candB P ctx e = true → c.match_index ≤ candMI ctx e) ∧
    (∀ e ∈ entries, candB P ctx e = true → candMI ctx e = c.match_index →
      candScore P ctx e ≤ c.score) ∧
    ∃ l1 e l2, entries = l1 ++ e :: l2 ∧ candB P ctx e = true ∧
      candPid e = some c.pid ∧ candMI ctx e = c.match_index ∧
      candScore P ctx e = c.score ∧
      ∀ x ∈ l1, candB P ctx x = true →
        c.match_index < candMI ctx x ∨
          (candMI ctx x = c.match_index ∧ candScore P ctx x < c.score) := by
  unfold find_champion at h
  cases hf : entries.foldl (find_champion_step P ctx) none with
  | none =>
    rw [hf] at h
    cases h
  | some c0 =>
    rw [hf] at h
    dsimp only at h
    have hsame : c.pid = c0.pid ∧ c.match_index = c0.match_index ∧ c.score = c0.score := by
      by_cases hr : c0.rss = 0
      · rw [if_pos hr] at h
        rw [← Option.some.inj h]
        exact ⟨rfl, rfl, rfl⟩
      · rw [if_neg hr] at h
        rw [← Option.some.inj h]
        exact ⟨rfl, rfl, rfl⟩
    obtain ⟨hcp, hcm, hcs⟩ := hsame
    have hInv := scan_foldl_inv P ctx entries none []
      (by
        intro e he
        simp at he)
      hstat
    rw [List.nil_append, hf] at hInv
    obtain ⟨hmin, hmax, l1, e, l2, hsplit, hecand, hepid, hemi, hesc, -, -, hl1⟩ := hInv
    refine ⟨?_, ?_, l1, e, l2, hsplit, hecand, ?_, ?_, ?_, ?_⟩
    · intro x hx hc
      rw [hcm]
      exact hmin x hx hc
    · intro x hx hc hmi
      rw [hcs]
      refine hmax x hx hc ?_
      rw [← hcm]
      exact hmi
    · rw [hcp]
      exact hepid
    · rw [hcm]
      exact hemi
    · rw [hcs]
      exact hesc
    · intro x hx hc
      rw [hcm, hcs]
      exact hl1 x hx hc

/-- C3 witness: over two healthy candidates with equal match_index
(no targets configured), the larger-rss process wins and the smaller one
is bounded by the champion's score. -/
theorem C3_champion_two_level_key_witness :
    find_champion P0 ctx0 [entry4242, entry77] (fun _ => none) = some c4242 ∧
    (∀ e ∈ [entry4242, entry77], candB P0 ctx0 e = true →
      c4242.match_index ≤ candMI ctx0 e) ∧
    (∀ e ∈ [entry4242, entry77], candB P0 ctx0 e = true →
      candMI ctx0 e = c4242.match_index → candScore P0 ctx0 e ≤ c4242.score) := by
  have h := C3_champion_two_level_key P0 ctx0 [entry4242, entry77] (fun _ => none)
    c4242 (by decide) (by decide)
  exact ⟨by decide, h.1, h.2.1⟩

/-- C4: for RAM and swap kill verdicts, amount_needed is calc_needed of
the corresponding gauge, whose value is max(0, target − current_free)
(Nat-truncated subtraction) and which is None exactly when that quantity
is 0; and run_loop invokes the kill engine only on Some, emitting the
informational abort instead on None. -/
theorem C4_amount_needed_and_gate :
    (∀ (rc : MemoryConfigParsed) (free total : Nat),
      (calc_needed rc free total).getD 0 = spec_needed rc free total ∧
      (calc_needed rc free total = none ↔ spec_needed rc free total = 0)) ∧
    (∀ (ctx : RuntimeContext) (st : MonitorState) (r : Readings) (dbg : Bool)
      (ev : SentinelEvent) (trig : String) (obs thr : Rat) (ty : String)
      (amt : Option Nat),
      (Monitor.check ctx st r dbg).2.2 = .kill ev →
      ev = .killTriggered trig obs thr ty amt →
      (trig = "LowMemory" → ∃ rc, ctx.ram = some rc ∧
        amt = calc_needed rc r.mem_available r.mem_total) ∧
      (trig = "LowSwap" → ∃ sc, ctx.swap = some sc ∧
        amt = calc_needed sc r.swap_free r.swap_total)) ∧
    (∀ (trig : String) (obs thr : Rat) (ty : String),
      run_loop_kill_step (.killTriggered trig obs thr ty none) =
        (none, [.killSequenceAborted .amountNone]) ∧
      ∀ n, run_loop_kill_step (.killTriggered trig obs thr ty (some n)) =
        (some n, [])) := by
  refine ⟨?_, ?_, ?_⟩
  · intro rc free total
    constructor
    · by_cases h : free < calc_target rc total <;>
        simp [calc_needed, spec_needed, h] <;> omega
    · by_cases h : free < calc_target rc total <;>
        simp [calc_needed, spec_needed, h] <;> omega
  · intro ctx st r dbg ev trig obs thr ty amt hstatus hev
    have hb : (blocks_out ctx st r).kill = some ev := by
      rw [Monitor_check_eq] at hstatus
      cases hk : (blocks_out ctx st r).kill with
      | some e =>
        rw [hk] at hstatus
        dsimp only at hstatus
        rw [← MonitorStatus.kill.inj hstatus]
      | none =>
        rw [hk] at hstatus
        dsimp only at hstatus
        cases hp : (blocks_out ctx st r).pending with
        | some pe =>
          rw [hp] at hstatus
          dsimp only at hstatus
          by_cases hcw : can_warn ctx (blocks_out ctx st r).st r.now
          · rw [if_pos hcw] at hstatus
            cases hstatus
          · rw [if_neg hcw] at hstatus
            cases hstatus
        | none =>
          rw [hp] at hstatus
          cases hstatus
    subst hev
    rcases blocks_out_kill_origin ctx st r _ hb with
      ⟨rc, obs2, thr2, ty2, hram, hev2⟩ | ⟨sc, obs2, thr2, ty2, hswap, hev2⟩ |
      ⟨obs2, thr2, amt2, hev2⟩
    · obtain ⟨htrig, -, -, -, hamt⟩ := SentinelEvent.killTriggered.inj hev2
      constructor
      · intro _
        exact ⟨rc, hram, hamt⟩
      · intro h2
        rw [h2] at htrig
        exact absurd htrig (by decide)
    · obtain ⟨htrig, -, -, -, hamt⟩ := SentinelEvent.killTriggered.inj hev2
      constructor
      · intro h2
        rw [h2] at htrig
        exact absurd htrig (by decide)
      · intro _
        exact ⟨sc, hswap, hamt⟩
    · obtain ⟨htrig, -, -, -, -⟩ := SentinelEvent.killTriggered.inj hev2
      constructor
      · intro h2
        rw [h2] at htrig
        exact absurd htrig (by decide)
      · intro h2
        rw [h2] at htrig
        exact absurd htrig (by decide)
  · intro trig obs thr ty
    exact ⟨rfl, fun n => rfl⟩

/-- C4 witness: 500 free of 2000 total under a 1000-byte kill threshold:
the verdict carries amount_needed = Some 500 = max(0, 1000 − 500), and
the gate invokes the kill engine with exactly 500. -/
theorem C4_amount_needed_and_gate_witness :
    ((Monitor.check ctxKill st0 rT1 false).2.2 = .kill evKill) ∧
    (∃ rc, ctxKill.ram = some rc ∧
      (some 500 : Option Nat) = calc_needed rc rT1.mem_available rT1.mem_total) ∧
    (calc_needed rcKillBytes 500 2000).getD 0 = spec_needed rcKillBytes 500 2000 ∧
    run_loop_kill_step evKill = (some 500, []) := by
  refine ⟨rfl, ?_, ?_, rfl⟩
  · exact (C4_amount_needed_and_gate.2.1 ctxKill st0 rT1 false evKill
      "LowMemory" ((500 : Nat) : Rat) ((1000 : Nat) : Rat) "bytes" (some 500)
      rfl rfl).1 rfl
  · exact (C4_amount_needed_and_gate.1 rcKillBytes 500 2000).1

/-- C5: every tick returns exactly one of Normal/Warn/Kill (the status is
one of the three constructors, which are pairwise distinct); a Kill
verdict emits no event from check itself and leaves last_warn_time
untouched even if a warn threshold was also crossed; and a pending warn
suppressed by rate limiting yields Normal. -/
theorem C5_status_discipline (ctx : RuntimeContext) (st : MonitorState)
    (r : Readings) (dbg : Bool) :
    ((Monitor.check ctx st r dbg).2.2 = .normal ∨
      (Monitor.check ctx st r dbg).2.2 = .warn ∨
      ∃ e, (Monitor.check ctx st r dbg).2.2 = .kill e) ∧
    (∀ ev, (Monitor.check ctx st r dbg).2.2 = .kill ev →
      (Monitor.check ctx st r dbg).2.1 = [] ∧
      (Monitor.check ctx st r dbg).1.last_warn_time = st.last_warn_time) ∧
    (∀ pe, (blocks_out ctx st r).kill = none →
      (blocks_out ctx st r).pending = some pe →
      can_warn ctx st r.now = false →
      (Monitor.check ctx st r dbg).2.2 = .normal) := by
  rw [Monitor_check_eq]
  cases hk : (blocks_out ctx st r).kill with
  | some e =>
    dsimp only
    refine ⟨Or.inr (Or.inr ⟨e, rfl⟩), ?_, ?_⟩
    · intro ev hev
      exact ⟨rfl, blocks_out_lwt ctx st r⟩
    · intro pe h1 h2 h3
      exact Option.noConfusion h1
  | none =>
    dsimp only
    cases hp : (blocks_out ctx st r).pending with
    | none =>
      dsimp only
      refine ⟨Or.inl rfl, ?_, ?_⟩
      · intro ev hev
        cases hev
      · intro pe h1 h2 h3
        exact Option.noConfusion h2
    | some pe0 =>
      dsimp only
      by_cases hcw : can_warn ctx (blocks_out ctx st r).st r.now
      · rw [if_pos hcw]
        refine ⟨Or.inr (Or.inl rfl), ?_, ?_⟩
        · intro ev hev
          cases hev
        · intro pe h1 h2 h3
          rw [can_warn_congr ctx (blocks_out ctx st r).st st r.now
            (blocks_out_lwt ctx st r)] at hcw
          rw [h3] at hcw
          cases hcw
      · rw [if_neg hcw]
        refine ⟨Or.inl rfl, ?_, ?_⟩
        · intro ev hev
          cases hev
        · intro pe h1 h2 h3
          rfl

/-- C5 witness: a kill tick (bytes threshold crossed) emits nothing from
check and keeps last_warn_time; a rate-limited warn tick returns Normal. -/
theorem C5_status_discipline_witness :
    ((Monitor.check ctxKill st0 rT1 false).2.1 = [] ∧
      (Monitor.check ctxKill st0 rT1 false).1.last_warn_time = st0.last_warn_time) ∧
    (Monitor.check ctxWarn stRecentWarn rT1 false).2.2 = .normal := by
  refine ⟨(C5_status_discipline ctxKill st0 rT1 false).2.1 evKill rfl, ?_⟩
  exact (C5_status_discipline ctxWarn stRecentWarn rT1 false).2.2 peWarn
    rfl rfl (by decide)

/-- C6: on a tick with a pending warn (and no kill), the warn is emitted,
last_warn_time set to now, and Warn returned exactly when no warn was
ever emitted or now − last_warn_time ≥ warn_reset_ms; otherwise the warn
is suppressed with no warn event and unchanged state. Consequently two
warn-eligible ticks closer than warn_reset_ms produce exactly one warn
event, the second returning Normal. -/
theorem C6_warn_rate_limit :
    (∀ (ctx : RuntimeContext) (st : MonitorState) (r : Readings) (dbg : Bool)
      (pe : SentinelEvent),
      (blocks_out ctx st r).kill = none →
      (blocks_out ctx st r).pending = some pe →
      (((Monitor.check ctx st r dbg).2.2 = .warn) ↔
        (st.last_warn_time = none ∨
          ∃ last, st.last_warn_time = some last ∧
            ctx.warn_reset_ms ≤ (r.now - last) / 1000)) ∧
      ((Monitor.check ctx st r dbg).2.2 = .warn →
        pe ∈ (Monitor.check ctx st r dbg).2.1 ∧
        (Monitor.check ctx st r dbg).1.last_warn_time = some r.now) ∧
      ((Monitor.check ctx st r dbg).2.2 ≠ .warn →
        warnCount (Monitor.check ctx st r dbg).2.1 = 0 ∧
        (Monitor.check ctx st r dbg).1.last_warn_time = st.last_warn_time)) ∧
    (∀ (ctx : RuntimeContext) (st : MonitorState) (r1 r2 : Readings)
      (pe1 pe2 : SentinelEvent),
      st.last_warn_time = none →
      (blocks_out ctx st r1).kill = none →
      (blocks_out ctx st r1).pending = some pe1 →
      (blocks_out ctx (Monitor.check ctx st r1 false).1 r2).kill = none →
      (blocks_out ctx (Monitor.check ctx st r1 false).1 r2).pending = some pe2 →
      (r2.now - r1.now) / 1000 < ctx.warn_reset_ms →
      warnCount ((Monitor.check ctx st r1 false).2.1 ++
        (Monitor.check ctx (Monitor.check ctx st r1 false).1 r2 false).2.1) = 1 ∧
      (Monitor.check ctx (Monitor.check ctx st r1 false).1 r2 false).2.2 = .normal) := by
  have hiff : ∀ (ctx : RuntimeContext) (st : MonitorState) (now : Nat),
      can_warn ctx st now = true ↔
        (st.last_warn_time = none ∨
          ∃ last, st.last_warn_time = some last ∧
            ctx.warn_reset_ms ≤ (now - last) / 1000) := by
    intro ctx st now
    unfold can_warn
    cases hlw : st.last_warn_time with
    | none => simp
    | some last => simp
  constructor
  · intro ctx st r dbg pe hk hp
    have hcwc := can_warn_congr ctx (blocks_out ctx st r).st st r.now
      (blocks_out_lwt ctx st r)
    by_cases hcw : can_warn ctx (blocks_out ctx st r).st r.now = true
    · have hcheck : Monitor.check ctx st r dbg =
          ({ (blocks_out ctx st r).st with last_warn_time := some r.now },
            (if dbg then
              [.monitorHeartbeat (blocks_out ctx st r).st.ram_bytes
                (blocks_out ctx st r).st.ram_percent
                (blocks_out ctx st r).st.swap_bytes
                (blocks_out ctx st r).st.swap_percent
                (blocks_out ctx st r).st.psi_pressure]
             else []) ++ [pe], .warn) := by
        rw [Monitor_check_eq]
        simp only [hk, hp, if_pos hcw]
      rw [hcheck]
      refine ⟨?_, ?_, ?_⟩
      · constructor
        · intro _
          exact (hiff ctx st r.now).mp (hcwc ▸ hcw)
        · intro _
          rfl
      · intro _
        exact ⟨List.mem_append_right _ (List.mem_singleton_self pe), rfl⟩
      · intro hne
        exact absurd rfl hne
    · have hcwf : can_warn ctx (blocks_out ctx st r).st r.now = false := by
        simpa using hcw
      have hcheck : Monitor.check ctx st r dbg =
          ((blocks_out ctx st r).st,
            (if dbg then
              [.monitorHeartbeat (blocks_out ctx st r).st.ram_bytes
                (blocks_out ctx st r).st.ram_percent
                (blocks_out ctx st r).st.swap_bytes
                (blocks_out ctx st r).st.swap_percent
                (blocks_out ctx st r).st.psi_pressure]
             else []), .normal) := by
        rw [Monitor_check_eq]
        simp only [hk, hp, hcwf, Bool.false_eq_true, if_false]
      rw [hcheck]
      refine ⟨?_, ?_, ?_⟩
      · constructor
        · intro h
          cases h
        · intro hrhs
          have := (hiff ctx st r.now).mpr hrhs
          rw [← hcwc] at this
          rw [this] at hcwf
          cases hcwf
      · intro h
        cases h
      · intro _
        refine ⟨?_, blocks_out_lwt ctx st r⟩
        cases dbg <;> rfl
  · intro ctx st r1 r2 pe1 pe2 hlw hk1 hp1 hk2 hp2 htime
    have hcw1 : can_warn ctx (blocks_out ctx st r1).st r1.now = true := by
      rw [can_warn_congr ctx (blocks_out ctx st r1).st st r1.now
        (blocks_out_lwt ctx st r1)]
      unfold can_warn
      rw [hlw]
    have hcheck1 : Monitor.check ctx st r1 false =
        ({ (blocks_out ctx st r1).st with last_warn_time := some r1.now },
          [pe1], .warn) := by
      rw [Monitor_check_eq]
      simp only [hk1, hp1, if_pos hcw1, Bool.false_eq_true, if_false,
        List.nil_append]
    have hst1 : (Monitor.check ctx st r1 false).1.last_warn_time = some r1.now := by
      rw [hcheck1]
    have hw1 : isWarnEvent pe1 = true := blocks_out_pending_warn ctx st r1 pe1 hp1
    have hcw2 : can_warn ctx
        (blocks_out ctx (Monitor.check ctx st r1 false).1 r2).st r2.now = false := by
      rw [can_warn_congr ctx _ (Monitor.check ctx st r1 false).1 r2.now
        (blocks_out_lwt ctx (Monitor.check ctx st r1 false).1 r2)]
      unfold can_warn
      rw [hst1]
      simp only [decide_eq_false_iff_not]
      omega
    have hcheck2 : Monitor.check ctx (Monitor.check ctx st r1 false).1 r2 false =
        ((blocks_out ctx (Monitor.check ctx st r1 false).1 r2).st, [], .normal) := by
      rw [Monitor_check_eq]
      simp only [hk2, hp2, hcw2, Bool.false_eq_true, if_false]
    rw [hcheck2, hcheck1]
    constructor
    · simp [warnCount, List.countP_cons, hw1]
    · rfl

/-- C6 witness: two warn-eligible ticks one second apart under a 30 s
warn_reset_ms produce exactly one LowMemoryWarn; the second tick returns
Normal with no event. -/
theorem C6_warn_rate_limit_witness :
    warnCount ((Monitor.check ctxWarn st0 rT1 false).2.1 ++
      (Monitor.check ctxWarn (Monitor.check ctxWarn st0 rT1 false).1 rT2 false).2.1) = 1 ∧
    (Monitor.check ctxWarn (Monitor.check ctxWarn st0 rT1 false).1 rT2 false).2.2 =
      .normal := by
  exact C6_warn_rate_limit.2 ctxWarn st0 rT1 rT2 peWarn peWarn
    rfl rfl rfl rfl rfl (by decide)

/-- C7 counterexample: with SIGTERM delivered and the verify read showing
the same start time, an ESRCH from the SIGKILL send makes kill_process
abort (None plus a KillSequenceAborted event) instead of returning the
victim's rss — so "ESRCH from a signal send collapses to success" fails
for the SIGKILL send. -/
theorem C7_sigkill_esrch_counterexample :
    envSigkillEsrch.sigkill_result = some .esrch ∧
    kill_process envSigkillEsrch c4242 "bigproc" =
      ⟨none, [.killSequenceAborted (.sigkillFailed 4242 .esrch)], true⟩ :=
  ⟨rfl, by decide⟩

/-- C7 (amended): PID reuse at verify, ESRCH from the SIGTERM send, and an
unreadable stat at verify each collapse to "victim gone = success":
kill_process returns the victim's rss rather than aborting. (ESRCH from
the later SIGKILL send instead aborts the sequence.) -/
theorem C7_victim_gone_success :
    (∀ (env : KillEnv) (victim : Champion) (name : String),
      env.sigterm_result = some .esrch →
      kill_process env victim name =
        ⟨some victim.rss, [.killCandidateIgnored victim.pid .alreadyGone], false⟩) ∧
    (∀ (env : KillEnv) (victim : Champion) (name : String) (s : List Char) (t : Nat),
      env.sigterm_result = none → env.stat_after_wait = some s →
      parseStartTime s = some t → t ≠ victim.start_time →
      (kill_process env victim name).result = some victim.rss) ∧
    (∀ (env : KillEnv) (victim : Champion) (name : String),
      env.sigterm_result = none → env.stat_after_wait = none →
      kill_process env victim name =
        ⟨some victim.rss, [.killExecuted victim.pid name .sigterm victim.rss],
          false⟩) := by
  refine ⟨?_, ?_, ?_⟩
  · intro env victim name h
    obtain ⟨a, b, c⟩ := env
    dsimp only at h
    subst h
    rfl
  · intro env victim name s t h1 h2 h3 h4
    obtain ⟨a, b, c⟩ := env
    dsimp only at h1 h2
    subst h1
    subst h2
    unfold kill_process
    dsimp only
    rw [h3]
    dsimp only
    rw [if_pos h4]
  · intro env victim name h1 h2
    obtain ⟨a, b, c⟩ := env
    dsimp only at h1 h2
    subst h1
    subst h2
    rfl

/-- C7 witness: the three amended success cases at concrete inputs. -/
theorem C7_victim_gone_success_witness :
    kill_process ⟨some .esrch, none, none⟩ c4242 "bigproc" =
      ⟨some c4242.rss, [.killCandidateIgnored c4242.pid .alreadyGone], false⟩ ∧
    (kill_process envReuse c4242 "bigproc").result = some c4242.rss ∧
    kill_process ⟨none, none, none⟩ c4242 "bigproc" =
      ⟨some c4242.rss, [.killExecuted c4242.pid "bigproc" .sigterm c4242.rss],
        false⟩ :=
  ⟨C7_victim_gone_success.1 ⟨some .esrch, none, none⟩ c4242 "bigproc" rfl,
    C7_victim_gone_success.2.1 envReuse c4242 "bigproc" stat67890 67890 rfl rfl
      (by decide) (by decide),
    C7_victim_gone_success.2.2 ⟨none, none, none⟩ c4242 "bigproc" rfl rfl⟩

/-- C8 counterexample: kill_sequence invoked with amount_needed = Some 0
over a world holding an eligible process does scan /proc (a candidate is
selected) and does send signals (a SIGKILL is executed) before
terminating — refuting "returns immediately without scanning /proc and
without sending any signal". -/
theorem C8_zero_amount_counterexample :
    kill_sequence P0 ctx0 [roundKillOk] (some 0) =
      some [.killCandidateSelected 4242 "bigproc" 102400 102400 usizeMax,
        .killExecuted 4242 "bigproc" .sigkill 102400,
        .killSequenceAborted (.targetReached 102400)] := by decide

/-- C8 (amended): kill_sequence with amount_needed = Some 0 still scans
/proc; when the scan yields a champion and the kill succeeds, the zero
target is reached by that first kill and the sequence terminates after
exactly one kill with the Target-reached abort. -/
theorem C8_zero_amount_one_kill (P : SysParams) (ctx : RuntimeContext)
    (r : Round) (rs : List Round) (es : List DirEntry) (c : Champion) (f : Nat)
    (hpe : r.proc_entries = some es)
    (hfc : find_champion P ctx es r.statm_reread = some c)
    (hkp : (kill_process r.kill_env c (r.comm.getD "unknown")).result = some f) :
    kill_sequence P ctx (r :: rs) (some 0) =
      some ([.killCandidateSelected c.pid (r.comm.getD "unknown") c.score c.rss
          c.match_index] ++
        (kill_process r.kill_env c (r.comm.getD "unknown")).events ++
        [.killSequenceAborted (.targetReached f)]) := by
  rw [kill_sequence_cons_success P ctx r rs es c f 0 hpe hfc hkp,
    if_pos (Nat.zero_le f)]

/-- C8 witness: the amended behaviour at the concrete one-round world. -/
theorem C8_zero_amount_one_kill_witness :
    kill_sequence P0 ctx0 [roundKillOk] (some 0) =
      some ([.killCandidateSelected c4242.pid (roundKillOk.comm.getD "unknown")
          c4242.score c4242.rss c4242.match_index] ++
        (kill_process roundKillOk.kill_env c4242
          (roundKillOk.comm.getD "unknown")).events ++
        [.killSequenceAborted (.targetReached 102400)]) :=
  C8_zero_amount_one_kill P0 ctx0 roundKillOk [] [entry4242] c4242 102400
    rfl (by decide) (by decide)

/-- C9 counterexample: a failed SIGTERM send makes kill_process emit one
KillSequenceAborted and kill_sequence a second — two KillSequenceAborted
events in one terminating invocation with Some n, refuting "exactly
one". -/
theorem C9_two_aborts_counterexample :
    kill_sequence P0 ctx0 [roundTermFail] (some 1000) =
      some [.killCandidateSelected 4242 "bigproc" 102400 102400 usizeMax,
        .killSequenceAborted (.sigtermFailed 4242 .eperm),
        .killSequenceAborted (.killFailed 4242 "bigproc")] ∧
    abortCount [.killCandidateSelected 4242 "bigproc" 102400 102400 usizeMax,
      .killSequenceAborted (.sigtermFailed 4242 .eperm),
      .killSequenceAborted (.killFailed 4242 "bigproc")] = 2 :=
  ⟨by decide, by decide⟩

/-- C9 (amended): every terminating invocation of kill_sequence with
amount_needed = Some n ends with a KillSequenceAborted as its final
event — on success that event carries the Target-reached reason and is
the only abort — and emits one or two KillSequenceAborted events in
total (two exactly on the failed-kill and proc-unreadable paths); and
whenever every scanned champion frees at least one byte, the sequence
terminates within n+1 scans. -/
theorem C9_abort_discipline (P : SysParams) (ctx : RuntimeContext) :
    (∀ rounds n evs, kill_sequence P ctx rounds (some n) = some evs →
      (∃ re, evs.getLast? = some (.killSequenceAborted re)) ∧
      (abortCount evs = 1 ∨ abortCount evs = 2)) ∧
    (∀ (r : Round) (rs : List Round) (es : List DirEntry) (c : Champion)
      (f n : Nat),
      r.proc_entries = some es →
      find_champion P ctx es r.statm_reread = some c →
      (kill_process r.kill_env c (r.comm.getD "unknown")).result = some f →
      n ≤ f →
      ∃ evs, kill_sequence P ctx (r :: rs) (some n) = some evs ∧
        abortCount evs = 1 ∧
        evs.getLast? = some (.killSequenceAborted (.targetReached f))) ∧
    (∀ rounds n, n + 1 ≤ rounds.length →
      (∀ r ∈ rounds, ∀ es c, r.proc_entries = some es →
        find_champion P ctx es r.statm_reread = some c → 1 ≤ c.rss) →
      (kill_sequence P ctx rounds (some n)).isSome = true) := by
  refine ⟨kill_sequence_abort_shape P ctx, ?_, kill_sequence_total P ctx⟩
  intro r rs es c f n hpe hfc hkp hle
  have hseq := kill_sequence_cons_success P ctx r rs es c f n hpe hfc hkp
  rw [if_pos hle] at hseq
  refine ⟨_, hseq, ?_, ?_⟩
  · obtain ⟨-, habort0⟩ := kill_process_success _ _ _ _ hkp
    simp only [abortCount, List.countP_append, List.countP_cons, List.countP_nil,
      List.nil_append] at habort0 ⊢
    simp [habort0]
  · exact getLast?_append_right _ _ _ rfl

/-- C9 witness: the success path at a concrete round — a single abort
event carrying the Target-reached reason. -/
theorem C9_abort_discipline_witness :
    ∃ evs, kill_sequence P0 ctx0 [roundKillOk] (some 100) = some evs ∧
      abortCount evs = 1 ∧
      evs.getLast? = some (.killSequenceAborted (.targetReached 102400)) :=
  (C9_abort_discipline P0 ctx0).2.1 roundKillOk [] [entry4242] c4242 102400 100
    rfl (by decide) (by decide) (by decide)

/-- C10 counterexample: a configuration whose psi section is present and
threshold-free, probed while /proc/pressure/memory is unreadable
(psi_read = none), can still abort with PsiConfig (exit code 7) rather
than PsiUnavailable (exit code 8): its derived PSI interval
10 × 300000 ms fails the psi-section validation before the availability
probe runs. -/
theorem C10_psi_gate_counterexample :
    cfgPsiIntervalBad.psi = some ⟨none, none, none, none⟩ ∧
    Config.load parse_size0 regex_compile0 (2 ^ 34) none cfgPsiIntervalBad =
      .error (.psiConfig (.intervalOutOfRange 3000000)) ∧
    (ConfigError.psiConfig (.intervalOutOfRange 3000000)).exit_code = 7 :=
  ⟨rfl, rfl, rfl⟩

/-- C10 (amended): whenever the loaded configuration has a psi section and
load's earlier steps succeed — global validation, pattern compilation,
and the psi section's own parsing (as the threshold-free sane-defaults
section does) — Config::load performs the availability probe and aborts
with PsiUnavailable, exit code 8, when /proc/pressure/memory is missing
or unreadable; sane_defaults in particular does. -/
theorem C10_psi_gate (parse_size : String → Option Nat)
    (regex_compile : String → Option (List Char → Bool)) (total_ram : Nat)
    (config : Config) (p : PsiConfig) (parsed : PsiConfigParsed)
    (ig kt : List Pattern)
    (hpsi : config.psi = some p)
    (hval : config.validate = .ok ())
    (hig : compile_patterns regex_compile config.ignore_names "ignore_names" = .ok ig)
    (hkt : compile_patterns regex_compile config.kill_targets "kill_targets" = .ok kt)
    (htry : PsiConfigParsed.try_from_config parse_size total_ram p
      config.check_interval_ms = .ok parsed) :
    Config.load parse_size regex_compile total_ram none config =
      .error .psiUnavailable ∧
    ConfigError.psiUnavailable.exit_code = 8 ∧
    Config.load parse_size regex_compile total_ram none Config.sane_defaults =
      .error .psiUnavailable := by
  refine ⟨?_, rfl, rfl⟩
  unfold Config.load
  rw [hval]
  dsimp only
  rw [hig]
  dsimp only
  rw [hkt]
  dsimp only
  rw [hpsi]
  dsimp only
  rw [htry]

/-- C10 witness: sane_defaults (psi present, all thresholds unset) with
the probe failing aborts with PsiUnavailable and exit code 8. -/
theorem C10_psi_gate_witness :
    Config.load parse_size0 regex_compile0 0 none Config.sane_defaults =
      .error .psiUnavailable ∧
    ConfigError.psiUnavailable.exit_code = 8 :=
  ⟨(C10_psi_gate parse_size0 regex_compile0 0 Config.sane_defaults
      ⟨none, none, none, none⟩ psiParsedDefault [] ktDefault
      rfl rfl rfl rfl rfl).1,
    (C10_psi_gate parse_size0 regex_compile0 0 Config.sane_defaults
      ⟨none, none, none, none⟩ psiParsedDefault [] ktDefault
      rfl rfl rfl rfl rfl).2.1⟩

end RamSentinel
